import Mathlib

/-!
# Gitea client handle of the Nephio controllers

Shallow embedding of `controllers/pkg/git/gitea/giteaclient.go` together with the
neutral types of `controllers/pkg/git/types/git.go`.

* Go pointers and interfaces are `Option` values (`none` is `nil`).
* A Go `error` is `Option GoError`.
* A run of a method either returns or stops with a nil-pointer dereference (`Outcome`).
* The gitea SDK (`code.gitea.io/sdk/gitea`) is an external library: a live SDK client is a
  record of reply functions, and every request a wrapper hands to it is recorded in a trace.
-/

set_option linter.dupNamespace false

namespace Nephio

/-! ## Go runtime -/

/-- Message carried by a non-nil Go `error`. -/
abbrev GoError := String

/-- Result of running a piece of Go code: it returns a value, or the runtime
stops it with a nil-pointer dereference. -/
inductive Outcome (α : Type) where
  | returned (a : α)
  | nilDeref
  deriving Repr, DecidableEq

/-- Sequencing of Go evaluation steps: a dereference failure stops everything after it. -/
def Outcome.bind {α β : Type} (x : Outcome α) (f : α → Outcome β) : Outcome β :=
  match x with
  | .returned a => f a
  | .nilDeref => .nilDeref

/-- The value of type `net/http.Response` a gitea reply points to. -/
structure HttpResponse where
  StatusCode : Int
  Status : String
  deriving Repr, DecidableEq

/-- A Go `interface{}` argument, by dynamic type. -/
inductive AnyValue where
  | nil
  | int64 (n : Int)
  | int (n : Int)
  | string (s : String)
  | bool (b : Bool)
  deriving Repr, DecidableEq

/-! ## `controllers/pkg/git/types/git.go` -/

namespace gittypes

structure Response where
  Response : Option HttpResponse
  deriving Repr, DecidableEq

structure User where
  UserName : String
  deriving Repr, DecidableEq

structure Repository where
  CloneURL : String
  deriving Repr, DecidableEq

abbrev TrustModel := String

structure CreateRepoOption where
  Name : String
  Description : String
  Private : Bool
  IssueLabels : String
  AutoInit : Bool
  Template : Bool
  Gitignores : String
  License : String
  Readme : String
  DefaultBranch : String
  TrustModel : TrustModel
  deriving Repr, DecidableEq

abbrev MergeStyle := String

structure InternalTracker where
  EnableTimeTracker : Bool
  AllowOnlyContributorsToTrackTime : Bool
  EnableIssueDependencies : Bool
  deriving Repr, DecidableEq

structure ExternalTracker where
  ExternalTrackerURL : String
  ExternalTrackerFormat : String
  ExternalTrackerStyle : String
  deriving Repr, DecidableEq

structure ExternalWiki where
  ExternalWikiURL : String
  deriving Repr, DecidableEq

structure EditRepoOption where
  Name : Option String
  Description : Option String
  Website : Option String
  Private : Option Bool
  Template : Option Bool
  HasIssues : Option Bool
  InternalTracker : Option InternalTracker
  ExternalTracker : Option ExternalTracker
  HasWiki : Option Bool
  ExternalWiki : Option ExternalWiki
  DefaultBranch : Option String
  HasPullRequests : Option Bool
  HasProjects : Option Bool
  IgnoreWhitespaceConflicts : Option Bool
  AllowMerge : Option Bool
  AllowRebase : Option Bool
  AllowRebaseMerge : Option Bool
  AllowSquash : Option Bool
  Archived : Option Bool
  MirrorInterval : Option String
  AllowManualMerge : Option Bool
  AutodetectManualMerge : Option Bool
  DefaultMergeStyle : Option MergeStyle
  deriving Repr, DecidableEq

abbrev AccessTokenScope := String

structure AccessToken where
  ID : Int
  Name : String
  Token : String
  TokenLastEight : String
  Scopes : Option (List AccessTokenScope)
  deriving Repr, DecidableEq

structure CreateAccessTokenOption where
  Name : String
  Scopes : Option (List AccessTokenScope)
  deriving Repr, DecidableEq

structure ListOptions where
  Page : Int
  PageSize : Int
  deriving Repr, DecidableEq

structure ListAccessTokensOptions where
  toListOptions : ListOptions
  deriving Repr, DecidableEq

def ListAccessTokensOptions.Page (o : ListAccessTokensOptions) : Int := o.toListOptions.Page

def ListAccessTokensOptions.PageSize (o : ListAccessTokensOptions) : Int :=
  o.toListOptions.PageSize

end gittypes

/-! ## The gitea SDK, as far as the wrappers touch it

The SDK is an external library.  Its option and reply types are the ones
`git/types/git.go` mirrors field by field. -/

namespace sdk

structure Response where
  Response : Option HttpResponse
  deriving Repr, DecidableEq

structure User where
  UserName : String
  deriving Repr, DecidableEq

structure Repository where
  CloneURL : String
  deriving Repr, DecidableEq

abbrev TrustModel := String

structure CreateRepoOption where
  Name : String
  Description : String
  Private : Bool
  IssueLabels : String
  AutoInit : Bool
  Template : Bool
  Gitignores : String
  License : String
  Readme : String
  DefaultBranch : String
  TrustModel : TrustModel
  deriving Repr, DecidableEq

structure EditRepoOption where
  Name : Option String
  Description : Option String
  Website : Option String
  Private : Option Bool
  Template : Option Bool
  HasIssues : Option Bool
  InternalTracker : Option gittypes.InternalTracker
  ExternalTracker : Option gittypes.ExternalTracker
  HasWiki : Option Bool
  ExternalWiki : Option gittypes.ExternalWiki
  DefaultBranch : Option String
  HasPullRequests : Option Bool
  HasProjects : Option Bool
  IgnoreWhitespaceConflicts : Option Bool
  AllowMerge : Option Bool
  AllowRebase : Option Bool
  AllowRebaseMerge : Option Bool
  AllowSquash : Option Bool
  Archived : Option Bool
  MirrorInterval : Option String
  AllowManualMerge : Option Bool
  AutodetectManualMerge : Option Bool
  DefaultMergeStyle : Option String
  deriving Repr, DecidableEq

/-- Zero value of the SDK edit option: every field a nil pointer. -/
def EditRepoOption.zero : EditRepoOption :=
  { Name := none, Description := none, Website := none, Private := none, Template := none,
    HasIssues := none, InternalTracker := none, ExternalTracker := none, HasWiki := none,
    ExternalWiki := none, DefaultBranch := none, HasPullRequests := none, HasProjects := none,
    IgnoreWhitespaceConflicts := none, AllowMerge := none, AllowRebase := none,
    AllowRebaseMerge := none, AllowSquash := none, Archived := none, MirrorInterval := none,
    AllowManualMerge := none, AutodetectManualMerge := none, DefaultMergeStyle := none }

structure AccessToken where
  ID : Int
  Name : String
  Token : String
  TokenLastEight : String
  Scopes : Option (List String)
  deriving Repr, DecidableEq

structure CreateAccessTokenOption where
  Name : String
  Scopes : Option (List String)
  deriving Repr, DecidableEq

structure ListOptions where
  Page : Int
  PageSize : Int
  deriving Repr, DecidableEq

structure ListAccessTokensOptions where
  toListOptions : ListOptions
  deriving Repr, DecidableEq

/-- Credentials installed by `gitea.SetBasicAuth`. -/
structure BasicAuth where
  username : String
  password : String
  deriving Repr, DecidableEq

/-- A request handed to the remote service through the SDK client. -/
inductive Request where
  | GetMyUserInfo
  | DeleteRepo (owner repo : String)
  | GetRepo (userName repoCRName : String)
  | CreateRepo (opt : CreateRepoOption)
  | EditRepo (userName repoCRName : String) (opt : EditRepoOption)
  | DeleteAccessToken (tokenID : Int)
  | ListAccessTokens (opts : ListAccessTokensOptions)
  | CreateAccessToken (opt : CreateAccessTokenOption)
  deriving Repr, DecidableEq

/-- A live `*gitea.Client`: what the remote service answers to each request.
Slices are `Option (List _)` (`none` is the nil slice) and their elements are pointers. -/
structure Client where
  GetMyUserInfo : Option User × Option Response × Option GoError
  DeleteRepo : String → String → Option Response × Option GoError
  GetRepo : String → String → Option Repository × Option Response × Option GoError
  CreateRepo : CreateRepoOption → Option Repository × Option Response × Option GoError
  EditRepo : String → String → EditRepoOption →
    Option Repository × Option Response × Option GoError
  DeleteAccessToken : Int → Option Response × Option GoError
  ListAccessTokens : ListAccessTokensOptions →
    Option (List (Option AccessToken)) × Option Response × Option GoError
  CreateAccessToken : CreateAccessTokenOption →
    Option AccessToken × Option Response × Option GoError

end sdk

/-! ## Collaborators of the handle: Kubernetes client, context, logger -/

/-- Value of type `corev1.Secret`: its byte map `Data` (keys in insertion order). -/
structure Secret where
  Data : List (String × String)
  deriving Repr, DecidableEq

/-- Value of `secret.Data[key]` converted to a string: a missing key reads as the empty string. -/
def Secret.field (s : Secret) (key : String) : String :=
  (s.Data.lookup key).getD ""

/-- Value of type `types.NamespacedName`. -/
structure NamespacedName where
  Namespace : String
  Name : String
  deriving Repr, DecidableEq

/-- A live `client.Client` of controller-runtime. -/
structure K8sClient where
  id : Nat
  deriving Repr, DecidableEq

/-- Value of type `resource.APIPatchingApplicator`: it embeds a `client.Client` interface. -/
structure APIPatchingApplicator where
  Client : Option K8sClient
  deriving Repr, DecidableEq

/-- Value of type `logr.Logger`. -/
structure Logger where
  sink : Nat
  deriving Repr, DecidableEq

/-- A non-nil `context.Context`; `log.FromContext` reads `logger`. -/
structure Context where
  id : Nat
  logger : Logger
  deriving Repr, DecidableEq

/-! ## `controllers/pkg/git/gitea/giteaclient.go` -/

/-- The handle `gc`. -/
structure gc where
  client : APIPatchingApplicator
  giteaClient : Option sdk.Client
  l : Logger

/-- A run of a capability method: the requests handed to the remote service, in order,
and how the method ended. -/
abbrev Exec (α : Type) := List sdk.Request × Outcome α

/-- The expression `&gittypes.Response{Response: resp.Response}`: reading the field of a
nil `resp` is a nil dereference. -/
def wrapResponse (resp : Option sdk.Response) : Outcome (Option gittypes.Response) :=
  match resp with
  | none => .nilDeref
  | some rp => .returned (some { Response := rp.Response })

def gc.IsInitialized (r : gc) : Bool :=
  r.giteaClient.isSome

def gc.Get (r : gc) : Option sdk.Client :=
  r.giteaClient

def gc.GetMyUserInfo (r : gc) :
    Exec (Option gittypes.User × Option gittypes.Response × Option GoError) :=
  match r.giteaClient with
  | none => ([], .nilDeref)
  | some c =>
    match c.GetMyUserInfo with
    | (userInfo, resp, err) =>
      ([.GetMyUserInfo],
        match err with
        | some e => (wrapResponse resp).bind fun rp => .returned (none, rp, some e)
        | none =>
          match userInfo with
          | none => .nilDeref
          | some u =>
            (wrapResponse resp).bind fun rp =>
              .returned (some { UserName := u.UserName }, rp, none))

def gc.DeleteRepo (r : gc) (owner : String) (repo : String) :
    Exec (Option gittypes.Response × Option GoError) :=
  match r.giteaClient with
  | none => ([], .nilDeref)
  | some c =>
    match c.DeleteRepo owner repo with
    | (resp, err) =>
      ([.DeleteRepo owner repo],
        match err with
        | some e => (wrapResponse resp).bind fun rp => .returned (rp, some e)
        | none => (wrapResponse resp).bind fun rp => .returned (rp, none))

def gc.GetRepo (r : gc) (userName : String) (repoCRName : String) :
    Exec (Option gittypes.Repository × Option gittypes.Response × Option GoError) :=
  match r.giteaClient with
  | none => ([], .nilDeref)
  | some c =>
    match c.GetRepo userName repoCRName with
    | (repo, resp, err) =>
      ([.GetRepo userName repoCRName],
        match err with
        | some e => (wrapResponse resp).bind fun rp => .returned (none, rp, some e)
        | none =>
          match repo with
          | none => .nilDeref
          | some rep =>
            (wrapResponse resp).bind fun rp =>
              .returned (some { CloneURL := rep.CloneURL }, rp, none))

/-- The SDK option literal built inside `CreateRepo`. -/
def createRepoRequest (createRepoOption : gittypes.CreateRepoOption) : sdk.CreateRepoOption :=
  { Name := createRepoOption.Name
    Description := createRepoOption.Description
    Private := createRepoOption.Private
    IssueLabels := createRepoOption.IssueLabels
    AutoInit := createRepoOption.AutoInit
    Template := createRepoOption.Template
    Gitignores := createRepoOption.Gitignores
    License := createRepoOption.License
    Readme := createRepoOption.Readme
    DefaultBranch := createRepoOption.DefaultBranch
    TrustModel := createRepoOption.TrustModel }

def gc.CreateRepo (r : gc) (createRepoOption : gittypes.CreateRepoOption) :
    Exec (Option gittypes.Repository × Option gittypes.Response × Option GoError) :=
  match r.giteaClient with
  | none => ([], .nilDeref)
  | some c =>
    match c.CreateRepo (createRepoRequest createRepoOption) with
    | (repo, resp, err) =>
      ([.CreateRepo (createRepoRequest createRepoOption)],
        match err with
        | some e => (wrapResponse resp).bind fun rp => .returned (none, rp, some e)
        | none =>
          match repo with
          | none => .nilDeref
          | some rep =>
            (wrapResponse resp).bind fun rp =>
              .returned (some { CloneURL := rep.CloneURL }, rp, none))

/-- The SDK option literal built inside `EditRepo`: three fields are given, the others
keep their zero value. -/
def editRepoRequest (editRepoOption : gittypes.EditRepoOption) : sdk.EditRepoOption :=
  { sdk.EditRepoOption.zero with
    Name := editRepoOption.Name
    Description := editRepoOption.Description
    Private := editRepoOption.Private }

def gc.EditRepo (r : gc) (userName : String) (repoCRName : String)
    (editRepoOption : gittypes.EditRepoOption) :
    Exec (Option gittypes.Repository × Option gittypes.Response × Option GoError) :=
  match r.giteaClient with
  | none => ([], .nilDeref)
  | some c =>
    match c.EditRepo userName repoCRName (editRepoRequest editRepoOption) with
    | (repo, resp, err) =>
      ([.EditRepo userName repoCRName (editRepoRequest editRepoOption)],
        match err with
        | some e => (wrapResponse resp).bind fun rp => .returned (none, rp, some e)
        | none =>
          match repo with
          | none => .nilDeref
          | some rep =>
            (wrapResponse resp).bind fun rp =>
              .returned (some { CloneURL := rep.CloneURL }, rp, none))

def gc.DeleteAccessToken (r : gc) (value : AnyValue) :
    Exec (Option gittypes.Response × Option GoError) :=
  match value with
  | .int64 tokenID =>
    match r.giteaClient with
    | none => ([], .nilDeref)
    | some c =>
      match c.DeleteAccessToken tokenID with
      | (resp, err) =>
        ([.DeleteAccessToken tokenID],
          match err with
          | some e => (wrapResponse resp).bind fun rp => .returned (rp, some e)
          | none => (wrapResponse resp).bind fun rp => .returned (rp, none))
  | _ => ([], .returned (none, some "DeleteAccessToken: value must be int64 (token ID)"))

/-- The SDK option literal built inside `ListAccessTokens`. -/
def listAccessTokensRequest (opts : gittypes.ListAccessTokensOptions) :
    sdk.ListAccessTokensOptions :=
  { toListOptions := { Page := opts.Page, PageSize := opts.PageSize } }

/-- The `for _, t := range tokens` loop of `ListAccessTokens`, `result` being the slice built
so far (`none` is the nil slice). -/
def appendTokens (result : Option (List (Option gittypes.AccessToken))) :
    List (Option sdk.AccessToken) → Outcome (Option (List (Option gittypes.AccessToken)))
  | [] => .returned result
  | none :: _ => .nilDeref
  | some t :: rest =>
    appendTokens
      (some (result.getD [] ++
        [some { ID := t.ID, Name := t.Name, Token := t.Token,
                TokenLastEight := "", Scopes := none }]))
      rest

def gc.ListAccessTokens (r : gc) (opts : gittypes.ListAccessTokensOptions) :
    Exec (Option (List (Option gittypes.AccessToken)) × Option gittypes.Response ×
      Option GoError) :=
  match r.giteaClient with
  | none => ([], .nilDeref)
  | some c =>
    match c.ListAccessTokens (listAccessTokensRequest opts) with
    | (tokens, resp, err) =>
      ([.ListAccessTokens (listAccessTokensRequest opts)],
        match err with
        | some e => (wrapResponse resp).bind fun rp => .returned (none, rp, some e)
        | none =>
          (appendTokens none (tokens.getD [])).bind fun result =>
            (wrapResponse resp).bind fun rp => .returned (result, rp, none))

/-- The SDK option literal built inside `CreateAccessToken`: only `Name` is given. -/
def createAccessTokenRequest (opt : gittypes.CreateAccessTokenOption) :
    sdk.CreateAccessTokenOption :=
  { Name := opt.Name, Scopes := none }

def gc.CreateAccessToken (r : gc) (opt : gittypes.CreateAccessTokenOption) :
    Exec (Option gittypes.AccessToken × Option gittypes.Response × Option GoError) :=
  match r.giteaClient with
  | none => ([], .nilDeref)
  | some c =>
    match c.CreateAccessToken (createAccessTokenRequest opt) with
    | (token, resp, err) =>
      ([.CreateAccessToken (createAccessTokenRequest opt)],
        match err with
        | some e => (wrapResponse resp).bind fun rp => .returned (none, rp, some e)
        | none =>
          match token with
          | none => .nilDeref
          | some t =>
            (wrapResponse resp).bind fun rp =>
              .returned (some { ID := t.ID, Name := t.Name, Token := t.Token,
                                TokenLastEight := "", Scopes := none }, rp, none))

/-! ### Bootstrap loop `Start` -/

def getClientAuth (secret : Secret) : sdk.BasicAuth :=
  { username := secret.field "username", password := secret.field "password" }

/-- What the surroundings answer during one pass of the `Start` loop: whether `ctx.Done()` is
ready when the `select` is reached (`done`), whether it is ready when `time.Sleep` returns
(`doneAfterSleep`, which `Start` never looks at), the process environment, the reply of the
Kubernetes client to `Get` (the secret object as `Get` leaves it, and the error), and the
reply of `gitea.NewClient` (an error, or a live client). -/
structure World where
  done : Bool
  doneAfterSleep : Bool
  env : String → Option String
  Get : K8sClient → NamespacedName → Secret × Option GoError
  NewClient : String → sdk.BasicAuth → Except GoError sdk.Client

/-- Observable steps of the `Start` loop, in program order. -/
inductive Event where
  | printf (text : String)
  | sleep (seconds : Nat)
  | lookupEnv (key : String)
  | getenv (key : String)
  | secretGet (key : NamespacedName)
  | newClient (url : String) (auth : sdk.BasicAuth)
  | logError (err : GoError) (msg : String)
  | logInfo (msg : String)
  deriving Repr, DecidableEq

/-- How one pass of the loop ends: `exit` is the `return` of the cancellation case, `ready`
the `return` after the client is stored, `again` a `break` out of the `select` (the `for`
goes round again), `panicked` a nil dereference. -/
inductive Next where
  | exit
  | ready
  | again
  | panicked
  deriving Repr, DecidableEq

structure Pass where
  handle : gc
  events : List Event
  next : Next

/-- `os.Getenv`: an undefined variable reads as the empty string. -/
def getenv (w : World) (key : String) : String :=
  (w.env key).getD ""

/-- Namespace the secret is looked up in (lines 94 to 97). -/
def secretNamespace (w : World) : String :=
  match w.env "GIT_NAMESPACE" with
  | some gitNamespace => gitNamespace
  | none => getenv w "POD_NAMESPACE"

/-- Name the secret is looked up under (lines 98 to 101). -/
def secretName (w : World) : String :=
  match w.env "GIT_SECRET_NAME" with
  | some gitSecretName => gitSecretName
  | none => "git-user-secret"

/-- One pass through the body of the `for` loop of `Start`. -/
def gc.pass (r : gc) (ctx : Option Context) (w : World) : Pass :=
  match ctx with
  | none => { handle := r, events := [], next := .panicked }
  | some c =>
    if w.done then
      { handle := r
        events := [.printf "controller manager context cancelled: Exit\n"]
        next := .exit }
    else
      let r1 : gc := { r with l := c.logger }
      let ev1 : List Event := [.sleep 5, .lookupEnv "GIT_URL"]
      match w.env "GIT_URL" with
      | none =>
        { handle := r1
          events := ev1 ++ [.logError "git url not defined" "cannot connect to git server"]
          next := .again }
      | some gitURL =>
        let key : NamespacedName := { Namespace := secretNamespace w, Name := secretName w }
        let ev2 : List Event :=
          ev1 ++ [.getenv "POD_NAMESPACE", .lookupEnv "GIT_NAMESPACE",
                  .lookupEnv "GIT_SECRET_NAME"]
        match r1.client.Client with
        | none => { handle := r1, events := ev2, next := .panicked }
        | some k =>
          match w.Get k key with
          | (_, some err) =>
            { handle := r1
              events := ev2 ++ [.secretGet key,
                .logError err
                  "Cannot get secret, please follow README and create the gitea secret"]
              next := .again }
          | (secret, none) =>
            let ev3 : List Event :=
              ev2 ++ [.secretGet key, .newClient gitURL (getClientAuth secret)]
            match w.NewClient gitURL (getClientAuth secret) with
            | .error err =>
              { handle := r1
                events := ev3 ++ [.logError err "cannot authenticate to gitea"]
                next := .again }
            | .ok giteaClient =>
              { handle := { r1 with giteaClient := some giteaClient }
                events := ev3 ++ [.logInfo "gitea init done"]
                next := .ready }

/-- The `for` loop of `Start` from its pass number `i` on, `ws i` being the surroundings of
pass `i`.  `none`: the loop is still running after `fuel` passes. -/
def gc.StartFrom (ctx : Option Context) (ws : Nat → World) : Nat → Nat → gc → Option Pass
  | 0, _, _ => none
  | fuel + 1, i, r =>
    match (r.pass ctx (ws i)).next with
    | .again =>
      (gc.StartFrom ctx ws fuel (i + 1) (r.pass ctx (ws i)).handle).map fun rest =>
        { rest with events := (r.pass ctx (ws i)).events ++ rest.events }
    | _ => some (r.pass ctx (ws i))

def gc.Start (r : gc) (ctx : Option Context) (ws : Nat → World) (fuel : Nat) : Option Pass :=
  gc.StartFrom ctx ws fuel 0 r

/-! ### The singleton and `GetClient` -/

/-- A goroutine launched by `go singleInstance.Start(ctx)`: the handle it runs on (its address)
and its context. -/
structure Goroutine where
  handle : Nat
  ctx : Context
  deriving Repr, DecidableEq

/-- Process state: the handles allocated so far (a handle's address is its position), the
package variable `singleInstance`, the goroutines launched and the log lines written. -/
structure Proc where
  heap : List gc
  singleInstance : Option Nat
  goroutines : List Goroutine
  log : List (Logger × String)

/-- A process in which `GetClient` has not run yet. -/
def Proc.fresh : Proc :=
  { heap := [], singleInstance := none, goroutines := [], log := [] }

/-- Zero value of `logr.Logger`. -/
def Logger.zero : Logger := { sink := 0 }

/-- `GetClient`, called while no other call is in progress (the mutex is free). It returns
the `git.Client` (the address of the handle behind it) and the error. -/
def GetClient (ctx : Option Context) (client : APIPatchingApplicator) (p : Proc) :
    (Option Nat × Option GoError) × Proc :=
  match ctx with
  | none => ((none, some "failed creating gitea client, value of ctx cannot be nil"), p)
  | some c =>
    match client.Client with
    | none =>
      ((none, some "failed creating gitea client, value of client.Client cannot be nil"), p)
    | some _ =>
      let p1 : Proc :=
        match p.singleInstance with
        | none =>
          match p.singleInstance with
          | none =>
            { heap := p.heap ++ [{ client := client, giteaClient := none, l := Logger.zero }]
              singleInstance := some p.heap.length
              goroutines := p.goroutines ++ [{ handle := p.heap.length, ctx := c }]
              log := p.log ++ [(c.logger, "Gitea Client Instance created now.")] }
          | some _ =>
            { p with log := p.log ++ [(c.logger, "Gitea Client Instance already created.")] }
        | some _ =>
          { p with log := p.log ++ [(c.logger, "Gitea Client Instance already created.")] }
      ((p1.singleInstance, none), p1)

/-- A call of `GetClient` by its arguments. -/
structure Call where
  ctx : Option Context
  client : APIPatchingApplicator
  deriving Repr, DecidableEq

/-- A sequence of `GetClient` calls, one after the other: what each returned, and the
process state at the end. -/
def runCalls : List Call → Proc → List (Option Nat × Option GoError) × Proc
  | [], p => ([], p)
  | c :: cs, p =>
    let step := GetClient c.ctx c.client p
    let rest := runCalls cs step.2
    (step.1 :: rest.1, rest.2)

/-- A call that passes the two nil checks of `GetClient`. -/
def Call.valid (c : Call) : Bool :=
  c.ctx.isSome && c.client.Client.isSome

/-! ### Sample handles and remote services -/

/-- A reply envelope with the given status. -/
def sdk.Response.withStatus (code : Int) (status : String) : sdk.Response :=
  { Response := some { StatusCode := code, Status := status } }

/-- A remote service that refuses every request with the same error and a 500 reply. -/
def sdk.Client.refusing (e : GoError) : sdk.Client :=
  { GetMyUserInfo := (none, some (sdk.Response.withStatus 500 "500"), some e)
    DeleteRepo := fun _ _ => (some (sdk.Response.withStatus 500 "500"), some e)
    GetRepo := fun _ _ => (none, some (sdk.Response.withStatus 500 "500"), some e)
    CreateRepo := fun _ => (none, some (sdk.Response.withStatus 500 "500"), some e)
    EditRepo := fun _ _ _ => (none, some (sdk.Response.withStatus 500 "500"), some e)
    DeleteAccessToken := fun _ => (some (sdk.Response.withStatus 500 "500"), some e)
    ListAccessTokens := fun _ => (none, some (sdk.Response.withStatus 500 "500"), some e)
    CreateAccessToken := fun _ => (none, some (sdk.Response.withStatus 500 "500"), some e) }

/-- A remote service that accepts every request: user `gitea`, one repository per name, and
tokens that echo the requested name and scopes. -/
def sdk.Client.accepting : sdk.Client :=
  { GetMyUserInfo := (some { UserName := "gitea" }, some (sdk.Response.withStatus 200 "200"), none)
    DeleteRepo := fun _ _ => (some (sdk.Response.withStatus 204 "204"), none)
    GetRepo := fun u n =>
      (some { CloneURL := "http://gitea/" ++ u ++ "/" ++ n ++ ".git" },
        some (sdk.Response.withStatus 200 "200"), none)
    CreateRepo := fun o =>
      (some { CloneURL := "http://gitea/gitea/" ++ o.Name ++ ".git" },
        some (sdk.Response.withStatus 201 "201"), none)
    EditRepo := fun u n _ =>
      (some { CloneURL := "http://gitea/" ++ u ++ "/" ++ n ++ ".git" },
        some (sdk.Response.withStatus 200 "200"), none)
    DeleteAccessToken := fun _ => (some (sdk.Response.withStatus 204 "204"), none)
    ListAccessTokens := fun _ =>
      (some [some { ID := 123, Name := "test-token-test-ns", Token := "",
                    TokenLastEight := "89abcdef", Scopes := some ["repo"] }],
        some (sdk.Response.withStatus 200 "200"), none)
    CreateAccessToken := fun o =>
      (some { ID := 124, Name := o.Name, Token := "0123456789abcdef",
              TokenLastEight := "89abcdef", Scopes := o.Scopes },
        some (sdk.Response.withStatus 201 "201"), none) }

/-- The handle as `GetClient` builds it: no gitea client yet. -/
def gc.notReady : gc :=
  { client := { Client := some { id := 1 } }, giteaClient := none, l := Logger.zero }

/-- A Ready handle over the given remote service. -/
def gc.readyOn (c : sdk.Client) : gc :=
  { client := { Client := some { id := 1 } }, giteaClient := some c, l := Logger.zero }

/-! ### Vocabulary of the properties -/

/-- Zero value of the edit option: every field a nil pointer. -/
def gittypes.EditRepoOption.zero : gittypes.EditRepoOption :=
  { Name := none, Description := none, Website := none, Private := none, Template := none,
    HasIssues := none, InternalTracker := none, ExternalTracker := none, HasWiki := none,
    ExternalWiki := none, DefaultBranch := none, HasPullRequests := none, HasProjects := none,
    IgnoreWhitespaceConflicts := none, AllowMerge := none, AllowRebase := none,
    AllowRebaseMerge := none, AllowSquash := none, Archived := none, MirrorInterval := none,
    AllowManualMerge := none, AutodetectManualMerge := none, DefaultMergeStyle := none }

/-- A pointer field of a request is set only if the same field of the option is set, and then
it holds the same value. -/
def setOnlyIf {α : Type} (req o : Option α) : Prop :=
  ∀ v, req = some v → o = some v

/-- Partial update, field by field: the request sets nothing the option leaves unset. -/
def editRequestWithin (req : sdk.EditRepoOption) (o : gittypes.EditRepoOption) : Prop :=
  setOnlyIf req.Name o.Name ∧
    setOnlyIf req.Description o.Description ∧
    setOnlyIf req.Website o.Website ∧
    setOnlyIf req.Private o.Private ∧
    setOnlyIf req.Template o.Template ∧
    setOnlyIf req.HasIssues o.HasIssues ∧
    setOnlyIf req.InternalTracker o.InternalTracker ∧
    setOnlyIf req.ExternalTracker o.ExternalTracker ∧
    setOnlyIf req.HasWiki o.HasWiki ∧
    setOnlyIf req.ExternalWiki o.ExternalWiki ∧
    setOnlyIf req.DefaultBranch o.DefaultBranch ∧
    setOnlyIf req.HasPullRequests o.HasPullRequests ∧
    setOnlyIf req.HasProjects o.HasProjects ∧
    setOnlyIf req.IgnoreWhitespaceConflicts o.IgnoreWhitespaceConflicts ∧
    setOnlyIf req.AllowMerge o.AllowMerge ∧
    setOnlyIf req.AllowRebase o.AllowRebase ∧
    setOnlyIf req.AllowRebaseMerge o.AllowRebaseMerge ∧
    setOnlyIf req.AllowSquash o.AllowSquash ∧
    setOnlyIf req.Archived o.Archived ∧
    setOnlyIf req.MirrorInterval o.MirrorInterval ∧
    setOnlyIf req.AllowManualMerge o.AllowManualMerge ∧
    setOnlyIf req.AutodetectManualMerge o.AutodetectManualMerge ∧
    setOnlyIf req.DefaultMergeStyle o.DefaultMergeStyle

/-- Surroundings in which gitea is provisioned: `GIT_URL` is defined, the default secret
exists and the service accepts the credentials. -/
def World.provisioned : World :=
  { done := false
    doneAfterSleep := false
    env := fun key => if key = "GIT_URL" then some "http://gitea:3000" else none
    Get := fun _ _ => ({ Data := [("username", "gitea"), ("password", "secret")] }, none)
    NewClient := fun _ _ => .ok sdk.Client.accepting }

/-- Surroundings in which `GIT_URL` is not defined. -/
def World.noURL : World :=
  { World.provisioned with env := fun _ => none }

/-- Surroundings in which the context is already cancelled when a pass begins. -/
def World.cancelled : World :=
  { World.provisioned with done := true, doneAfterSleep := true }

/-- Surroundings in which the context is live when a pass begins and gets cancelled while the
pass sleeps; gitea is provisioned. -/
def World.cancelledAsleep : World :=
  { World.provisioned with doneAfterSleep := true }

/-- The same, with `GIT_URL` not defined. -/
def World.cancelledAsleepNoURL : World :=
  { World.noURL with doneAfterSleep := true }

/-- Surroundings with every override set: the secret `gitea-creds` lives in namespace `gitea`
and lacks nothing. -/
def World.overridden : World :=
  { done := false
    doneAfterSleep := false
    env := fun key =>
      if key = "GIT_URL" then some "http://gitea:3000"
      else if key = "POD_NAMESPACE" then some "nephio-system"
      else if key = "GIT_NAMESPACE" then some "gitea"
      else if key = "GIT_SECRET_NAME" then some "gitea-creds"
      else none
    Get := fun _ key =>
      if key = { Namespace := "gitea", Name := "gitea-creds" } then
        ({ Data := [("username", "nephio"), ("password", "secret")] }, none)
      else ({ Data := [] }, some "secret not found")
    NewClient := fun _ _ => .ok sdk.Client.accepting }

/-- A remote side whose token calls fail before any HTTP exchange, as the SDK does when the
client has no user name: an error and no reply envelope. The other calls succeed. -/
def sdk.Client.noBasicAuth : sdk.Client :=
  { sdk.Client.accepting with
    DeleteAccessToken := fun _ => (none, some "username not set: only BasicAuth allowed")
    ListAccessTokens := fun _ =>
      (none, none, some "username not set: only BasicAuth allowed")
    CreateAccessToken := fun _ =>
      (none, none, some "username not set: only BasicAuth allowed") }

/-- The neutral token `ListAccessTokens` and `CreateAccessToken` build from a remote token. -/
def neutralToken (t : sdk.AccessToken) : gittypes.AccessToken :=
  { ID := t.ID, Name := t.Name, Token := t.Token, TokenLastEight := "", Scopes := none }

/-! ### Convergence operations

The reconcilers (`upsertRepo`, `deleteRepo`, `createToken`) are not among the sources; only
their tests and the interface they call are. -/

namespace git

/-- Modelled from the spec: a failed capability call as convergence sees it (sections 4.2
and 7), that is the error and, when there is one, the reply envelope by which the error is
classified. The reconciler code that inspects it is missing. -/
structure Failure where
  resp : Option gittypes.Response
  err : GoError
  deriving Repr, DecidableEq

/-- The capability methods of the interface `Client` of client.go as convergence calls them:
each call fails or yields its data. -/
structure Client where
  GetMyUserInfo : Except Failure gittypes.User
  DeleteRepo : String → String → Except Failure Unit
  GetRepo : String → String → Except Failure gittypes.Repository
  CreateRepo : gittypes.CreateRepoOption → Except Failure gittypes.Repository
  EditRepo : String → String → gittypes.EditRepoOption → Except Failure gittypes.Repository
  DeleteAccessToken : AnyValue → Except Failure Unit
  ListAccessTokens : gittypes.ListAccessTokensOptions →
    Except Failure (List gittypes.AccessToken)
  CreateAccessToken : gittypes.CreateAccessTokenOption → Except Failure gittypes.AccessToken

/-- A call made on the interface `Client`. -/
inductive Call where
  | GetMyUserInfo
  | DeleteRepo (owner repo : String)
  | GetRepo (userName repoCRName : String)
  | CreateRepo (opt : gittypes.CreateRepoOption)
  | EditRepo (userName repoCRName : String) (opt : gittypes.EditRepoOption)
  | DeleteAccessToken (value : AnyValue)
  | ListAccessTokens (opts : gittypes.ListAccessTokensOptions)
  | CreateAccessToken (opt : gittypes.CreateAccessTokenOption)
  deriving Repr, DecidableEq

end git

/-- Modelled from the spec: the RepositoryDescriptor of section 3 (the repository resource
the missing reconciler receives), its desired fields, each optional but the name, and the
observed clone URL of its status. -/
structure RepositoryDescriptor where
  Name : String
  Description : Option String
  Private : Option Bool
  IssueLabels : Option String
  AutoInit : Option Bool
  Template : Option Bool
  Gitignores : Option String
  License : Option String
  Readme : Option String
  DefaultBranch : Option String
  TrustModel : Option String
  StatusURL : Option String
  deriving Repr, DecidableEq

/-- Modelled from the spec: the edit request of step 3 of `upsert` (section 4.3), built by
the missing reconciler from only the descriptor fields that are set. -/
def editRequestOf (cr : RepositoryDescriptor) : gittypes.EditRepoOption :=
  { gittypes.EditRepoOption.zero with
    Description := cr.Description
    Private := cr.Private
    Template := cr.Template
    DefaultBranch := cr.DefaultBranch }

/-- Modelled from the spec: the full create request of step 4 of `upsert` (section 4.3),
built by the missing reconciler from all descriptor fields; an unset field gives the zero
value. -/
def createRequestOf (cr : RepositoryDescriptor) : gittypes.CreateRepoOption :=
  { Name := cr.Name
    Description := cr.Description.getD ""
    Private := cr.Private.getD false
    IssueLabels := cr.IssueLabels.getD ""
    AutoInit := cr.AutoInit.getD false
    Template := cr.Template.getD false
    Gitignores := cr.Gitignores.getD ""
    License := cr.License.getD ""
    Readme := cr.Readme.getD ""
    DefaultBranch := cr.DefaultBranch.getD ""
    TrustModel := cr.TrustModel.getD "" }

/-- Modelled from the spec: operation `upsert` of section 4.3, the missing `upsertRepo` of
the repository reconciler. `notFound` is the classification of a failed get-repository as
the not-found class. Result: the client calls made in order, the descriptor with its status
written, and the error. -/
def upsertRepo (notFound : git.Failure → Bool) (client : git.Client)
    (cr : RepositoryDescriptor) : List git.Call × RepositoryDescriptor × Option GoError :=
  match client.GetMyUserInfo with
  | .error f => ([.GetMyUserInfo], cr, some ("cannot resolve owning account: " ++ f.err))
  | .ok u =>
    match client.GetRepo u.UserName cr.Name with
    | .ok _ =>
      match client.EditRepo u.UserName cr.Name (editRequestOf cr) with
      | .error f =>
        ([.GetMyUserInfo, .GetRepo u.UserName cr.Name,
            .EditRepo u.UserName cr.Name (editRequestOf cr)],
          cr, some ("update failed: " ++ f.err))
      | .ok repo =>
        ([.GetMyUserInfo, .GetRepo u.UserName cr.Name,
            .EditRepo u.UserName cr.Name (editRequestOf cr)],
          { cr with StatusURL := some repo.CloneURL }, none)
    | .error f =>
      if notFound f then
        match client.CreateRepo (createRequestOf cr) with
        | .error g =>
          ([.GetMyUserInfo, .GetRepo u.UserName cr.Name, .CreateRepo (createRequestOf cr)],
            cr, some ("create failed: " ++ g.err))
        | .ok repo =>
          ([.GetMyUserInfo, .GetRepo u.UserName cr.Name, .CreateRepo (createRequestOf cr)],
            { cr with StatusURL := some repo.CloneURL }, none)
      else
        ([.GetMyUserInfo, .GetRepo u.UserName cr.Name], cr,
          some ("cannot determine whether the repository exists: " ++ f.err))

/-- Modelled from the spec: operation `delete` of section 4.3, the missing `deleteRepo` of
the repository reconciler; a failure of the not-found class counts as success. -/
def deleteRepo (notFound : git.Failure → Bool) (client : git.Client)
    (cr : RepositoryDescriptor) : List git.Call × Option GoError :=
  match client.GetMyUserInfo with
  | .error f => ([.GetMyUserInfo], some ("cannot resolve owning account: " ++ f.err))
  | .ok u =>
    match client.DeleteRepo u.UserName cr.Name with
    | .ok _ => ([.GetMyUserInfo, .DeleteRepo u.UserName cr.Name], none)
    | .error f =>
      ([.GetMyUserInfo, .DeleteRepo u.UserName cr.Name],
        if notFound f then none else some ("delete failed: " ++ f.err))

/-- Modelled from the spec: the TokenDescriptor of section 3 (the token resource the missing
reconciler receives): logical name, owning namespace, requested scopes. -/
structure TokenDescriptor where
  Name : String
  Namespace : String
  Scopes : Option (List gittypes.AccessTokenScope)
  deriving Repr, DecidableEq

/-- Modelled from the spec: the naming convention of section 4.4 applied by the missing
token reconciler, logical name, a dash, owning namespace. -/
def tokenName (cr : TokenDescriptor) : String :=
  cr.Name ++ "-" ++ cr.Namespace

/-- Modelled from the spec: step 1 of `create` of section 4.4 in the missing token
reconciler, the listing of the existing tokens. The spec asks for all pages and does not say
how they are asked for, so the page requests are a parameter: one `ListAccessTokens` call
per request of `pages`, in order. Result: the calls made, and the listing (the pages in
order) or the first failure. -/
def listAllTokens (client : git.Client) :
    List gittypes.ListAccessTokensOptions →
      List git.Call × Except git.Failure (List gittypes.AccessToken)
  | [] => ([], .ok [])
  | opts :: rest =>
    match client.ListAccessTokens opts with
    | .error f => ([.ListAccessTokens opts], .error f)
    | .ok page =>
      match listAllTokens client rest with
      | (calls, .error f) => (.ListAccessTokens opts :: calls, .error f)
      | (calls, .ok more) => (.ListAccessTokens opts :: calls, .ok (page ++ more))

/-- What a run of `createToken` did: the client calls in order, the secret values written
to the secret store, and the error. -/
structure TokenRun where
  calls : List git.Call
  stored : List (NamespacedName × String)
  err : Option GoError
  deriving Repr, DecidableEq

/-- Modelled from the spec: operation `create` of section 4.4, the missing `createToken` of
the token reconciler. `persist` is the write of the token value to the secret store,
`pages` the page requests of the listing. -/
def createToken (client : git.Client) (persist : NamespacedName → String → Option GoError)
    (pages : List gittypes.ListAccessTokensOptions) (cr : TokenDescriptor) : TokenRun :=
  match listAllTokens client pages with
  | (calls, .error f) =>
    { calls := calls, stored := [], err := some ("cannot list access tokens: " ++ f.err) }
  | (calls, .ok tokens) =>
    if tokens.any (fun t => t.Name == tokenName cr) then
      { calls := calls, stored := [], err := none }
    else
      match client.GetMyUserInfo with
      | .error f =>
        { calls := calls ++ [.GetMyUserInfo], stored := []
          err := some ("cannot resolve owning account: " ++ f.err) }
      | .ok _ =>
        match client.CreateAccessToken { Name := tokenName cr, Scopes := cr.Scopes } with
        | .error f =>
          { calls := calls ++ [.GetMyUserInfo,
              .CreateAccessToken { Name := tokenName cr, Scopes := cr.Scopes }]
            stored := []
            err := some ("cannot create access token: " ++ f.err) }
        | .ok token =>
          match persist { Namespace := cr.Namespace, Name := cr.Name } token.Token with
          | some e =>
            { calls := calls ++ [.GetMyUserInfo,
                .CreateAccessToken { Name := tokenName cr, Scopes := cr.Scopes }]
              stored := []
              err := some ("cannot store access token: " ++ e) }
          | none =>
            { calls := calls ++ [.GetMyUserInfo,
                .CreateAccessToken { Name := tokenName cr, Scopes := cr.Scopes }]
              stored := [({ Namespace := cr.Namespace, Name := cr.Name }, token.Token)]
              err := none }

/-- Classification of a failure as not-found by the status of its reply envelope. -/
def notFoundByStatus (f : git.Failure) : Bool :=
  match f.resp with
  | some { Response := some h } => h.StatusCode == 404
  | _ => false

/-- A client over an account `gitea` that holds no repository and one token,
`test-token-test-ns`, which it lists in reply to every page request, as the mock of the token
test does; creations succeed. -/
def git.Client.oneToken : git.Client :=
  { GetMyUserInfo := .ok { UserName := "gitea" }
    DeleteRepo := fun _ _ =>
      .error { resp := some { Response := some { StatusCode := 404, Status := "404" } }
               err := "repo does not exist" }
    GetRepo := fun _ _ =>
      .error { resp := some { Response := some { StatusCode := 404, Status := "404" } }
               err := "repo does not exist" }
    CreateRepo := fun o => .ok { CloneURL := "http://gitea/gitea/" ++ o.Name ++ ".git" }
    EditRepo := fun _ _ _ => .error { resp := none, err := "error updating repo" }
    DeleteAccessToken := fun _ => .ok ()
    ListAccessTokens := fun _ =>
      .ok [{ ID := 123, Name := "test-token-test-ns", Token := "", TokenLastEight := ""
             Scopes := none }]
    CreateAccessToken := fun o =>
      .ok { ID := 124, Name := o.Name, Token := "0123456789abcdef", TokenLastEight := ""
            Scopes := o.Scopes } }

/-- The same account when the caller identity cannot be resolved. -/
def git.Client.noIdentity : git.Client :=
  { git.Client.oneToken with
    GetMyUserInfo := .error { resp := none, err := "error getting User Information" } }

/-- The same account with the repository present. -/
def git.Client.repoPresent : git.Client :=
  { git.Client.oneToken with
    GetRepo := fun u n => .ok { CloneURL := "http://gitea/" ++ u ++ "/" ++ n ++ ".git" }
    EditRepo := fun u n _ => .ok { CloneURL := "http://gitea/" ++ u ++ "/" ++ n ++ ".git" } }

/-- A descriptor with only description and visibility set. -/
def RepositoryDescriptor.sample : RepositoryDescriptor :=
  { Name := "repo-name", Description := some "Dummy String", Private := some true
    IssueLabels := none, AutoInit := none, Template := none, Gitignores := none
    License := none, Readme := none, DefaultBranch := none, TrustModel := none
    StatusURL := none }

/-! ### Concurrent callers of `GetClient`

Callers run `GetClient` side by side. A step of the system is one step of one caller; a
step is one access to the shared state (`singleInstance`, the mutex `lock`, the list of
goroutines) or the local nil checks. Every order of steps is a schedule. -/

/-- Where a caller stands inside `GetClient`. -/
inductive Pc where
  | start
  | check1
  | wantLock
  | check2
  | construct
  | launch
  | retHeld
  | unlocking (v : Option Nat)
  | retFree
  | done (v : Option Nat)
  | failed (e : GoError)
  | crashed
  deriving Repr, DecidableEq

/-- The caller holds `lock`: it is between `lock.Lock()` and the deferred `lock.Unlock()`. -/
def Pc.held : Pc → Bool
  | .check2 | .construct | .launch | .retHeld | .unlocking _ => true
  | _ => false

/-- The caller has left `GetClient`. -/
def Pc.finished : Pc → Bool
  | .done _ | .failed _ | .crashed => true
  | _ => false

/-- A bound on the steps a caller still has to take. -/
def Pc.rank : Pc → Nat
  | .start => 8
  | .check1 => 7
  | .wantLock => 6
  | .check2 => 5
  | .construct => 4
  | .launch => 3
  | .retHeld => 2
  | .unlocking _ => 1
  | .retFree => 1
  | .done _ => 0
  | .failed _ => 0
  | .crashed => 0

/-- The process while callers are inside `GetClient`: the shared state, the caller that
holds `lock` if any, and where each caller stands. -/
structure System where
  proc : Proc
  owner : Option Nat
  pcs : Nat → Pc

/-- No caller has started and no handle exists. -/
def System.init : System :=
  { proc := Proc.fresh, owner := none, pcs := fun _ => .start }

/-- Logger a caller writes to (`log.FromContext(ctx)`). -/
def Call.logger (c : Call) : Logger :=
  match c.ctx with
  | some ctx => ctx.logger
  | none => Logger.zero

/-- Caller `i` moves on to `pc`. -/
def System.goto (s : System) (i : Nat) (pc : Pc) : System :=
  { s with pcs := Function.update s.pcs i pc }

/-- The shared state becomes `p`. -/
def System.withProc (s : System) (p : Proc) : System :=
  { s with proc := p }

/-- One step of caller `i` among the callers `0 .. n-1`, `calls i` being its arguments.
A caller waiting for the lock while another holds it, and a caller that has returned, do
not move.
* `start`: the two nil checks (lines 47 to 53).
* `check1`: the unlocked test of `singleInstance` (line 55).
* `wantLock`: `lock.Lock()` (line 57).
* `check2`: the test of `singleInstance` under the lock (line 60).
* `construct`: the allocation of the handle and the write of `singleInstance` (line 61).
* `launch`: `go singleInstance.Start(ctx)` (line 63).
* `retHeld`, `retFree`: the read of `singleInstance` by `return` (line 70).
* `unlocking`: the deferred `lock.Unlock()`. -/
def System.step (n : Nat) (calls : Nat → Call) (s : System) (i : Nat) : System :=
  if i < n then
    match s.pcs i with
    | .start =>
      match (calls i).ctx, (calls i).client.Client with
      | none, _ =>
        s.goto i (.failed "failed creating gitea client, value of ctx cannot be nil")
      | some _, none =>
        s.goto i (.failed "failed creating gitea client, value of client.Client cannot be nil")
      | some _, some _ => s.goto i .check1
    | .check1 =>
      match s.proc.singleInstance with
      | none => s.goto i .wantLock
      | some _ =>
        (s.withProc { s.proc with
          log := s.proc.log ++
            [((calls i).logger, "Gitea Client Instance already created.")] }).goto i .retFree
    | .wantLock =>
      match s.owner with
      | none => { s with owner := some i, pcs := Function.update s.pcs i .check2 }
      | some _ => s
    | .check2 =>
      match s.proc.singleInstance with
      | none => s.goto i .construct
      | some _ =>
        (s.withProc { s.proc with
          log := s.proc.log ++
            [((calls i).logger, "Gitea Client Instance already created.")] }).goto i .retHeld
    | .construct =>
      (s.withProc { s.proc with
        heap := s.proc.heap ++
          [{ client := (calls i).client, giteaClient := none, l := Logger.zero }]
        singleInstance := some s.proc.heap.length
        log := s.proc.log ++
          [((calls i).logger, "Gitea Client Instance created now.")] }).goto i .launch
    | .launch =>
      match s.proc.singleInstance, (calls i).ctx with
      | some h, some c =>
        (s.withProc { s.proc with
          goroutines := s.proc.goroutines ++ [{ handle := h, ctx := c }] }).goto i .retHeld
      | _, _ => s.goto i .crashed
    | .retHeld => s.goto i (.unlocking s.proc.singleInstance)
    | .unlocking v => { s with owner := none, pcs := Function.update s.pcs i (.done v) }
    | .retFree => s.goto i (.done s.proc.singleInstance)
    | .done _ => s
    | .failed _ => s
    | .crashed => s
  else s

/-- The system after the callers have taken their steps in the order of the schedule. -/
def System.run (n : Nat) (calls : Nat → Call) (sched : List Nat) (s : System) : System :=
  sched.foldl (System.step n calls) s

/-- What a caller knows about the shared state at its place in `GetClient`. -/
def localInv (p : Proc) : Pc → Prop
  | .construct => p.singleInstance = none
  | .launch => p.singleInstance = some 0 ∧ p.goroutines = []
  | .retHeld => p.singleInstance = some 0 ∧ p.goroutines.length = 1
  | .unlocking v => v = some 0 ∧ p.singleInstance = some 0 ∧ p.goroutines.length = 1
  | .retFree => p.singleInstance = some 0
  | .done v => v = some 0 ∧ p.singleInstance = some 0
  | .failed _ => False
  | .crashed => False
  | _ => True

/-- Invariant of the system of `n` callers: there is no handle, or one handle at address 0
with at most one goroutine on it; the lock is held by exactly the caller recorded as owner;
callers beyond `n` never move; each caller's local knowledge holds; and a published handle
without goroutine means its constructor is about to launch one. -/
structure System.Inv (n : Nat) (s : System) : Prop where
  shape : (s.proc.singleInstance = none ∧ s.proc.heap = [] ∧ s.proc.goroutines = []) ∨
    (s.proc.singleInstance = some 0 ∧ s.proc.heap.length = 1 ∧ s.proc.goroutines.length ≤ 1)
  handle : ∀ g ∈ s.proc.goroutines, g.handle = 0
  owns : ∀ i, (s.pcs i).held = true ↔ s.owner = some i
  idle : ∀ i, n ≤ i → s.pcs i = .start
  loc : ∀ i, localInv s.proc (s.pcs i)
  pending : s.proc.singleInstance = some 0 → s.proc.goroutines = [] → ∃ i, s.pcs i = .launch

/-- Steps the callers `0 .. n-1` still have to take at most. -/
def System.remaining (n : Nat) (s : System) : Nat :=
  ∑ i in Finset.range n, (s.pcs i).rank

/-- Callers with non-nil arguments of their own: caller `i` passes context `i` and client
`i`. -/
def sampleCalls (i : Nat) : Call :=
  { ctx := some { id := i, logger := { sink := 1 } }, client := { Client := some { id := i } } }

/-- A schedule of two callers in which both pass the unlocked test before either takes the
lock, and caller 1 asks for the lock while caller 0 holds it. -/
def raceSchedule : List Nat :=
  [0, 1, 0, 1, 0, 1, 0, 0, 1, 0, 0, 0, 1, 1, 1, 1]

/-! ## Properties of `GetClient` -/

/-- Once the singleton is set, a call with non-nil arguments returns it and only writes a
log line. -/
theorem GetClient_of_set (c : Context) (client : APIPatchingApplicator) (k : K8sClient)
    (p : Proc) (h : Nat) (hk : client.Client = some k) (hp : p.singleInstance = some h) :
    GetClient (some c) client p =
      ((some h, none),
        { p with log := p.log ++ [(c.logger, "Gitea Client Instance already created.")] }) := by
  simp [GetClient, hk, hp]

/-- With no singleton yet, a call with non-nil arguments allocates the handle at the next
free address, publishes it and launches `Start` on it. -/
theorem GetClient_of_unset (c : Context) (client : APIPatchingApplicator) (k : K8sClient)
    (p : Proc) (hk : client.Client = some k) (hp : p.singleInstance = none) :
    GetClient (some c) client p =
      ((some p.heap.length, none),
        { heap := p.heap ++ [{ client := client, giteaClient := none, l := Logger.zero }]
          singleInstance := some p.heap.length
          goroutines := p.goroutines ++ [{ handle := p.heap.length, ctx := c }]
          log := p.log ++ [(c.logger, "Gitea Client Instance created now.")] }) := by
  simp [GetClient, hk, hp]

/-- Later valid calls, made once the singleton is set, all return it and leave the heap, the
singleton and the list of goroutines alone. -/
theorem runCalls_of_set (cs : List Call) (hv : ∀ c ∈ cs, c.valid = true) (p : Proc) (h : Nat)
    (hp : p.singleInstance = some h) :
    (runCalls cs p).1 = List.replicate cs.length (some h, none) ∧
      (runCalls cs p).2.heap = p.heap ∧
      (runCalls cs p).2.singleInstance = some h ∧
      (runCalls cs p).2.goroutines = p.goroutines := by
  induction cs generalizing p with
  | nil => simp [runCalls, hp]
  | cons c cs ih =>
    have hc : c.valid = true := hv c (List.mem_cons_self _ _)
    have hrest : ∀ d ∈ cs, d.valid = true := fun d hd => hv d (List.mem_cons_of_mem _ hd)
    obtain ⟨ctx, client⟩ := c
    simp only [Call.valid, Bool.and_eq_true, Option.isSome_iff_exists] at hc
    obtain ⟨⟨c0, hc0⟩, ⟨k, hk⟩⟩ := hc
    subst hc0
    have hstep := GetClient_of_set c0 client k p h hk hp
    have ih1 := ih hrest
      { p with log := p.log ++ [(c0.logger, "Gitea Client Instance already created.")] } hp
    simp only [runCalls, hstep, List.length_cons, List.replicate_succ]
    exact ⟨by rw [ih1.1], ih1.2.1, ih1.2.2.1, ih1.2.2.2⟩

/-- C1: `GetClient` returns a nil handle with a non-nil error exactly when `ctx` is nil or
`client.Client` is nil, and then the process state (singleton, goroutines) is untouched; for
every other input it returns a non-nil handle with a nil error. -/
theorem C1_GetClient_nil_checks (ctx : Option Context) (client : APIPatchingApplicator)
    (p : Proc) :
    ((∃ e, (GetClient ctx client p).1 = (none, some e)) ↔
        (ctx = none ∨ client.Client = none)) ∧
      ((ctx = none ∨ client.Client = none) → (GetClient ctx client p).2 = p) ∧
      (¬ (ctx = none ∨ client.Client = none) →
        ∃ h, (GetClient ctx client p).1 = (some h, none)) := by
  cases ctx with
  | none => simp [GetClient]
  | some c =>
    cases hk : client.Client with
    | none => simp [GetClient, hk]
    | some k =>
      cases hp : p.singleInstance with
      | none => simp [GetClient_of_unset c client k p hk hp]
      | some h => simp [GetClient_of_set c client k p h hk hp]

/-- C2: from a process without a handle, a run of calls with non-nil arguments returns the
same handle address from every call; that handle was built by the first call and holds its
client; `Start` is launched once, by the first call, on that handle with that call's
context. -/
theorem C2_GetClient_singleton (c : Context) (client : APIPatchingApplicator) (cs : List Call)
    (p : Proc) (hclient : client.Client.isSome = true) (hv : ∀ d ∈ cs, d.valid = true)
    (hp : p.singleInstance = none) :
    (runCalls ({ ctx := some c, client := client } :: cs) p).1 =
        List.replicate (cs.length + 1) (some p.heap.length, none) ∧
      ((runCalls ({ ctx := some c, client := client } :: cs) p).2.heap.get? p.heap.length).map
          (fun g => g.client) = some client ∧
      (runCalls ({ ctx := some c, client := client } :: cs) p).2.singleInstance =
        some p.heap.length ∧
      (GetClient (some c) client p).2.goroutines =
        p.goroutines ++ [{ handle := p.heap.length, ctx := c }] ∧
      (runCalls ({ ctx := some c, client := client } :: cs) p).2.goroutines =
        p.goroutines ++ [{ handle := p.heap.length, ctx := c }] := by
  obtain ⟨k, hk⟩ := Option.isSome_iff_exists.mp hclient
  have hstep := GetClient_of_unset c client k p hk hp
  have hrest := runCalls_of_set cs hv (GetClient (some c) client p).2 p.heap.length
    (by rw [hstep])
  simp only [runCalls, List.replicate_succ]
  refine ⟨?_, ?_, hrest.2.2.1, by rw [hstep], ?_⟩
  · rw [hrest.1, hstep]
  · rw [hrest.2.1, hstep]
    simp
  · rw [hrest.2.2.2, hstep]

/-- Witness of C1: a nil context on a fresh process, a nil client, and a good call. -/
theorem C1_GetClient_nil_checks_witness :
    (GetClient none { Client := some { id := 1 } } Proc.fresh).1 =
        (none, some "failed creating gitea client, value of ctx cannot be nil") ∧
      (GetClient (some { id := 1, logger := { sink := 1 } }) { Client := none } Proc.fresh).1 =
        (none, some "failed creating gitea client, value of client.Client cannot be nil") ∧
      ((∃ e, (GetClient (some { id := 1, logger := { sink := 1 } }) { Client := some { id := 1 } }
          Proc.fresh).1 = (none, some e)) ↔
        ((some { id := 1, logger := { sink := 1 } } : Option Context) = none ∨
          (APIPatchingApplicator.mk (some { id := 1 })).Client = none)) :=
  ⟨rfl, rfl,
    (C1_GetClient_nil_checks (some { id := 1, logger := { sink := 1 } })
      { Client := some { id := 1 } } Proc.fresh).1⟩

/-- Witness of C2: three calls with different contexts and clients on a fresh process. -/
theorem C2_GetClient_singleton_witness :
    (runCalls
        [{ ctx := some { id := 1, logger := { sink := 1 } }, client := { Client := some { id := 7 } } },
         { ctx := some { id := 2, logger := { sink := 1 } }, client := { Client := some { id := 8 } } },
         { ctx := some { id := 3, logger := { sink := 2 } }, client := { Client := some { id := 9 } } }]
        Proc.fresh).1 = [(some 0, none), (some 0, none), (some 0, none)] ∧
      (runCalls
        [{ ctx := some { id := 1, logger := { sink := 1 } }, client := { Client := some { id := 7 } } },
         { ctx := some { id := 2, logger := { sink := 1 } }, client := { Client := some { id := 8 } } },
         { ctx := some { id := 3, logger := { sink := 2 } }, client := { Client := some { id := 9 } } }]
        Proc.fresh).2.goroutines =
        [{ handle := 0, ctx := { id := 1, logger := { sink := 1 } } }] := by
  have h := C2_GetClient_singleton { id := 1, logger := { sink := 1 } }
    { Client := some { id := 7 } }
    [{ ctx := some { id := 2, logger := { sink := 1 } }, client := { Client := some { id := 8 } } },
     { ctx := some { id := 3, logger := { sink := 2 } }, client := { Client := some { id := 9 } } }]
    Proc.fresh rfl (by decide) rfl
  exact ⟨h.1, h.2.2.2.2⟩

/-! ## Capability methods -/

/-- C3 fails on the code: on the handle `GetClient` has just built (not Ready),
`GetMyUserInfo` ends in a nil dereference instead of returning any error. -/
theorem C3_counterexample :
    gc.notReady.IsInitialized = false ∧
      ¬ ∃ u rp e, gc.notReady.GetMyUserInfo.2 = .returned (u, rp, some e) := by
  refine ⟨rfl, ?_⟩
  rintro ⟨u, rp, e, h⟩
  simp [gc.GetMyUserInfo, gc.notReady] at h

/-- C3 as amended: the capability methods carry no readiness check. On a handle that is not
Ready each of them calls the missing client, which is a nil dereference with no request
sent and no error returned; the one exception is `DeleteAccessToken` with a value that is
not an int64, which returns its type error before it reaches the client. -/
theorem C3_not_ready_dereferences (r : gc) (h : r.IsInitialized = false) :
    r.GetMyUserInfo = ([], .nilDeref) ∧
      (∀ owner repo, r.DeleteRepo owner repo = ([], .nilDeref)) ∧
      (∀ userName repoCRName, r.GetRepo userName repoCRName = ([], .nilDeref)) ∧
      (∀ o, r.CreateRepo o = ([], .nilDeref)) ∧
      (∀ userName repoCRName o, r.EditRepo userName repoCRName o = ([], .nilDeref)) ∧
      (∀ n, r.DeleteAccessToken (.int64 n) = ([], .nilDeref)) ∧
      (∀ value, (∀ n, value ≠ .int64 n) →
        r.DeleteAccessToken value =
          ([], .returned (none, some "DeleteAccessToken: value must be int64 (token ID)"))) ∧
      (∀ opts, r.ListAccessTokens opts = ([], .nilDeref)) ∧
      (∀ opt, r.CreateAccessToken opt = ([], .nilDeref)) := by
  have hc : r.giteaClient = none := by
    simpa [gc.IsInitialized] using h
  refine ⟨?_, ?_, ?_, ?_, ?_, ?_, ?_, ?_, ?_⟩
  · simp [gc.GetMyUserInfo, hc]
  · intro owner repo; simp [gc.DeleteRepo, hc]
  · intro userName repoCRName; simp [gc.GetRepo, hc]
  · intro o; simp [gc.CreateRepo, hc]
  · intro userName repoCRName o; simp [gc.EditRepo, hc]
  · intro n; simp [gc.DeleteAccessToken, hc]
  · intro value hv
    cases value with
    | int64 n => exact absurd rfl (hv n)
    | nil => rfl
    | int n => rfl
    | string s => rfl
    | bool b => rfl
  · intro opts; simp [gc.ListAccessTokens, hc]
  · intro opt; simp [gc.CreateAccessToken, hc]

/-- Witness of the amended C3 on the handle `GetClient` builds. -/
theorem C3_not_ready_dereferences_witness :
    gc.notReady.IsInitialized = false ∧
      gc.notReady.GetMyUserInfo = ([], .nilDeref) ∧
      gc.notReady.DeleteAccessToken (.string "test-token-test-ns") =
        ([], .returned (none, some "DeleteAccessToken: value must be int64 (token ID)")) :=
  ⟨rfl, (C3_not_ready_dereferences gc.notReady rfl).1,
    (C3_not_ready_dereferences gc.notReady rfl).2.2.2.2.2.2.1 (.string "test-token-test-ns")
      (by intro n; simp)⟩

/-- C4: on a Ready handle, whenever the remote call answers with an error `e` and a reply
envelope, each capability method returns that same `e`, a nil data object and the wrapped
envelope. -/
theorem C4_remote_error_surfaced (r : gc) (c : sdk.Client) (hr : r.giteaClient = some c)
    (e : GoError) (rp : sdk.Response) :
    (∀ u, c.GetMyUserInfo = (u, some rp, some e) →
        r.GetMyUserInfo.2 = .returned (none, some { Response := rp.Response }, some e)) ∧
      (∀ owner repo, c.DeleteRepo owner repo = (some rp, some e) →
        (r.DeleteRepo owner repo).2 = .returned (some { Response := rp.Response }, some e)) ∧
      (∀ userName repoCRName d, c.GetRepo userName repoCRName = (d, some rp, some e) →
        (r.GetRepo userName repoCRName).2 =
          .returned (none, some { Response := rp.Response }, some e)) ∧
      (∀ o d, c.CreateRepo (createRepoRequest o) = (d, some rp, some e) →
        (r.CreateRepo o).2 = .returned (none, some { Response := rp.Response }, some e)) ∧
      (∀ userName repoCRName o d,
        c.EditRepo userName repoCRName (editRepoRequest o) = (d, some rp, some e) →
        (r.EditRepo userName repoCRName o).2 =
          .returned (none, some { Response := rp.Response }, some e)) ∧
      (∀ n, c.DeleteAccessToken n = (some rp, some e) →
        (r.DeleteAccessToken (.int64 n)).2 =
          .returned (some { Response := rp.Response }, some e)) ∧
      (∀ opts d, c.ListAccessTokens (listAccessTokensRequest opts) = (d, some rp, some e) →
        (r.ListAccessTokens opts).2 =
          .returned (none, some { Response := rp.Response }, some e)) ∧
      (∀ opt d, c.CreateAccessToken (createAccessTokenRequest opt) = (d, some rp, some e) →
        (r.CreateAccessToken opt).2 =
          .returned (none, some { Response := rp.Response }, some e)) := by
  refine ⟨?_, ?_, ?_, ?_, ?_, ?_, ?_, ?_⟩
  · intro u h; simp [gc.GetMyUserInfo, hr, h, wrapResponse, Outcome.bind]
  · intro owner repo h; simp [gc.DeleteRepo, hr, h, wrapResponse, Outcome.bind]
  · intro userName repoCRName d h; simp [gc.GetRepo, hr, h, wrapResponse, Outcome.bind]
  · intro o d h; simp [gc.CreateRepo, hr, h, wrapResponse, Outcome.bind]
  · intro userName repoCRName o d h; simp [gc.EditRepo, hr, h, wrapResponse, Outcome.bind]
  · intro n h; simp [gc.DeleteAccessToken, hr, h, wrapResponse, Outcome.bind]
  · intro opts d h; simp [gc.ListAccessTokens, hr, h, wrapResponse, Outcome.bind]
  · intro opt d h; simp [gc.CreateAccessToken, hr, h, wrapResponse, Outcome.bind]

/-- Witness of C4: a remote service that refuses everything with `boom`. -/
theorem C4_remote_error_surfaced_witness :
    (gc.readyOn (sdk.Client.refusing "boom")).GetMyUserInfo.2 =
        .returned (none, some { Response := some { StatusCode := 500, Status := "500" } },
          some "boom") ∧
      ((gc.readyOn (sdk.Client.refusing "boom")).DeleteAccessToken (.int64 123)).2 =
        .returned (some { Response := some { StatusCode := 500, Status := "500" } },
          some "boom") :=
  ⟨(C4_remote_error_surfaced (gc.readyOn (sdk.Client.refusing "boom"))
      (sdk.Client.refusing "boom") rfl "boom" (sdk.Response.withStatus 500 "500")).1 none rfl,
    (C4_remote_error_surfaced (gc.readyOn (sdk.Client.refusing "boom"))
      (sdk.Client.refusing "boom") rfl "boom"
      (sdk.Response.withStatus 500 "500")).2.2.2.2.2.1 123 rfl⟩

/-- C5, the code at the failing input: asked for a token named `test-token-test-ns` with
scope `repo`, `CreateAccessToken` sends one request that carries the name and no scopes. -/
theorem C5_scopes_dropped :
    ((gc.readyOn sdk.Client.accepting).CreateAccessToken
        { Name := "test-token-test-ns", Scopes := some ["repo"] }).1 =
        [.CreateAccessToken { Name := "test-token-test-ns", Scopes := none }] ∧
      (sdk.CreateAccessTokenOption.mk "test-token-test-ns" none).Scopes ≠ some ["repo"] := by
  constructor
  · rfl
  · simp

/-- C6: on a Ready handle `CreateRepo` hands exactly one request to the remote service, a
create request whose eleven fields are those of the option. -/
theorem C6_CreateRepo_maps_all_fields (r : gc) (c : sdk.Client) (hr : r.giteaClient = some c)
    (o : gittypes.CreateRepoOption) :
    ∃ req, (r.CreateRepo o).1 = [.CreateRepo req] ∧
      req.Name = o.Name ∧ req.Description = o.Description ∧ req.Private = o.Private ∧
      req.IssueLabels = o.IssueLabels ∧ req.AutoInit = o.AutoInit ∧
      req.Template = o.Template ∧ req.Gitignores = o.Gitignores ∧ req.License = o.License ∧
      req.Readme = o.Readme ∧ req.DefaultBranch = o.DefaultBranch ∧
      req.TrustModel = o.TrustModel := by
  refine ⟨createRepoRequest o, ?_, rfl, rfl, rfl, rfl, rfl, rfl, rfl, rfl, rfl, rfl, rfl⟩
  simp [gc.CreateRepo, hr]

/-- Witness of C6: every field populated with a different value. -/
theorem C6_CreateRepo_maps_all_fields_witness :
    ∃ req, ((gc.readyOn sdk.Client.accepting).CreateRepo
        { Name := "repo-name", Description := "Dummy String", Private := true,
          IssueLabels := "labels", AutoInit := true, Template := false, Gitignores := "Go",
          License := "Apache-2.0", Readme := "Default", DefaultBranch := "main",
          TrustModel := "Trust Model" }).1 = [.CreateRepo req] ∧
      req.Name = "repo-name" ∧ req.Description = "Dummy String" ∧ req.Private = true ∧
      req.IssueLabels = "labels" ∧ req.AutoInit = true ∧ req.Template = false ∧
      req.Gitignores = "Go" ∧ req.License = "Apache-2.0" ∧ req.Readme = "Default" ∧
      req.DefaultBranch = "main" ∧ req.TrustModel = "Trust Model" :=
  C6_CreateRepo_maps_all_fields (gc.readyOn sdk.Client.accepting) sdk.Client.accepting rfl
    { Name := "repo-name", Description := "Dummy String", Private := true,
      IssueLabels := "labels", AutoInit := true, Template := false, Gitignores := "Go",
      License := "Apache-2.0", Readme := "Default", DefaultBranch := "main",
      TrustModel := "Trust Model" }

/-- C7: on a Ready handle `EditRepo` hands one edit request to the remote service; a field is
set in it only if it is set in the option, with the same value; and an option with only
`Description` and `Private` set gives a request with exactly those two fields set. -/
theorem C7_EditRepo_partial_update (r : gc) (c : sdk.Client) (hr : r.giteaClient = some c)
    (userName repoCRName : String) (o : gittypes.EditRepoOption) :
    (∃ req, (r.EditRepo userName repoCRName o).1 = [.EditRepo userName repoCRName req] ∧
        editRequestWithin req o) ∧
      ∀ d p, (r.EditRepo userName repoCRName
          { gittypes.EditRepoOption.zero with Description := some d, Private := some p }).1 =
        [.EditRepo userName repoCRName
          { sdk.EditRepoOption.zero with Description := some d, Private := some p }] := by
  constructor
  · refine ⟨editRepoRequest o, by simp [gc.EditRepo, hr], ?_⟩
    simp [editRequestWithin, setOnlyIf, editRepoRequest, sdk.EditRepoOption.zero]
  · intro d p
    simp [gc.EditRepo, hr, editRepoRequest, sdk.EditRepoOption.zero,
      gittypes.EditRepoOption.zero]

/-- Witness of C7: the option of the repository test, description and visibility only. -/
theorem C7_EditRepo_partial_update_witness :
    ((gc.readyOn sdk.Client.accepting).EditRepo "gitea" "repo-name"
        { gittypes.EditRepoOption.zero with
          Description := some "Dummy String", Private := some true }).1 =
      [.EditRepo "gitea" "repo-name"
        { sdk.EditRepoOption.zero with
          Description := some "Dummy String", Private := some true }] :=
  (C7_EditRepo_partial_update (gc.readyOn sdk.Client.accepting) sdk.Client.accepting rfl
    "gitea" "repo-name" gittypes.EditRepoOption.zero).2 "Dummy String" true

/-- C8: `DeleteAccessToken` returns a nil response with a non-nil error exactly when the value
is not an int64, and then it sends nothing; on a Ready handle an int64 value gives exactly
one delete-access-token request carrying that ID. -/
theorem C8_DeleteAccessToken_int64_only (r : gc) (value : AnyValue) :
    ((∃ e, (r.DeleteAccessToken value).2 = .returned (none, some e)) ↔
        ∀ n, value ≠ .int64 n) ∧
      ((∀ n, value ≠ .int64 n) → (r.DeleteAccessToken value).1 = []) ∧
      (∀ c n, r.giteaClient = some c → value = .int64 n →
        (r.DeleteAccessToken value).1 = [.DeleteAccessToken n]) := by
  cases value with
  | int64 n =>
    refine ⟨?_, ?_, ?_⟩
    · constructor
      · rintro ⟨e, h⟩
        cases hc : r.giteaClient with
        | none => simp [gc.DeleteAccessToken, hc] at h
        | some c =>
          rcases hrep : c.DeleteAccessToken n with ⟨_ | rp, _ | err⟩ <;>
            simp [gc.DeleteAccessToken, hc, hrep, wrapResponse, Outcome.bind] at h
      · intro h
        exact absurd rfl (h n)
    · intro h
      exact absurd rfl (h n)
    · intro c m hc hm
      cases hm
      simp [gc.DeleteAccessToken, hc]
  | nil => simp [gc.DeleteAccessToken]
  | int n => simp [gc.DeleteAccessToken]
  | string s => simp [gc.DeleteAccessToken]
  | bool b => simp [gc.DeleteAccessToken]

/-- Witness of C8: a token name is refused without a request, a token ID is sent on. -/
theorem C8_DeleteAccessToken_int64_only_witness :
    ((gc.readyOn sdk.Client.accepting).DeleteAccessToken
        (.string "test-token-test-ns")).1 = [] ∧
      ((gc.readyOn sdk.Client.accepting).DeleteAccessToken (.int64 123)).1 =
        [.DeleteAccessToken 123] :=
  ⟨(C8_DeleteAccessToken_int64_only (gc.readyOn sdk.Client.accepting)
      (.string "test-token-test-ns")).2.1 (by intro n; simp),
    (C8_DeleteAccessToken_int64_only (gc.readyOn sdk.Client.accepting)
      (.int64 123)).2.2 sdk.Client.accepting 123 rfl rfl⟩

/-! ## Bootstrap loop -/

/-- The loop stops on a pass that does not end in `again`. -/
theorem StartFrom_stop (ctx : Option Context) (ws : Nat → World) (fuel i : Nat) (r : gc)
    (h : (r.pass ctx (ws i)).next ≠ .again) :
    gc.StartFrom ctx ws (fuel + 1) i r = some (r.pass ctx (ws i)) := by
  unfold gc.StartFrom
  split
  · next heq => exact absurd heq h
  · rfl

/-- After a pass that ends in `again` the loop goes round: the rest of the run is the run
from the next pass on, started on the handle this pass left. -/
theorem StartFrom_again (ctx : Option Context) (ws : Nat → World) (fuel i : Nat) (r : gc)
    (h : (r.pass ctx (ws i)).next = .again) :
    gc.StartFrom ctx ws (fuel + 1) i r =
      (gc.StartFrom ctx ws fuel (i + 1) (r.pass ctx (ws i)).handle).map fun rest =>
        { rest with events := (r.pass ctx (ws i)).events ++ rest.events } := by
  conv => lhs; unfold gc.StartFrom
  simp [h]

/-- C9: one bootstrap attempt (a pass that begins with the context not cancelled, on a handle
holding a Kubernetes client). It ends the loop with the constructed client stored exactly
when `GIT_URL` is defined, the secret fetch succeeds and the construction succeeds. When the
URL is missing, the fetch fails or the construction fails, the gitea client of the handle is
as before, the attempt stops at the failing step and the loop goes round again. -/
theorem C9_bootstrap_attempt (r : gc) (k : K8sClient) (c : Context) (w : World)
    (hk : r.client.Client = some k) (hd : w.done = false) :
    (∀ gitURL secret g, w.env "GIT_URL" = some gitURL →
        w.Get k { Namespace := secretNamespace w, Name := secretName w } = (secret, none) →
        w.NewClient gitURL (getClientAuth secret) = .ok g →
        (r.pass (some c) w).handle.giteaClient = some g ∧
          (r.pass (some c) w).next = .ready ∧
          ∀ ws fuel i, ws i = w →
            gc.StartFrom (some c) ws (fuel + 1) i r = some (r.pass (some c) w)) ∧
      (w.env "GIT_URL" = none →
        (r.pass (some c) w).events =
          [.sleep 5, .lookupEnv "GIT_URL",
            .logError "git url not defined" "cannot connect to git server"]) ∧
      (∀ gitURL secret e, w.env "GIT_URL" = some gitURL →
        w.Get k { Namespace := secretNamespace w, Name := secretName w } = (secret, some e) →
        (r.pass (some c) w).events =
          [.sleep 5, .lookupEnv "GIT_URL", .getenv "POD_NAMESPACE", .lookupEnv "GIT_NAMESPACE",
            .lookupEnv "GIT_SECRET_NAME",
            .secretGet { Namespace := secretNamespace w, Name := secretName w },
            .logError e
              "Cannot get secret, please follow README and create the gitea secret"]) ∧
      (∀ gitURL secret e, w.env "GIT_URL" = some gitURL →
        w.Get k { Namespace := secretNamespace w, Name := secretName w } = (secret, none) →
        w.NewClient gitURL (getClientAuth secret) = .error e →
        (r.pass (some c) w).events =
          [.sleep 5, .lookupEnv "GIT_URL", .getenv "POD_NAMESPACE", .lookupEnv "GIT_NAMESPACE",
            .lookupEnv "GIT_SECRET_NAME",
            .secretGet { Namespace := secretNamespace w, Name := secretName w },
            .newClient gitURL (getClientAuth secret),
            .logError e "cannot authenticate to gitea"]) ∧
      ((r.pass (some c) w).next = .ready ↔
        ∃ gitURL secret g, w.env "GIT_URL" = some gitURL ∧
          w.Get k { Namespace := secretNamespace w, Name := secretName w } = (secret, none) ∧
          w.NewClient gitURL (getClientAuth secret) = .ok g) ∧
      ((r.pass (some c) w).next ≠ .ready →
        (r.pass (some c) w).handle.giteaClient = r.giteaClient ∧
          (r.pass (some c) w).next = .again ∧
          ∀ ws fuel i, ws i = w →
            gc.StartFrom (some c) ws (fuel + 1) i r =
              (gc.StartFrom (some c) ws fuel (i + 1) (r.pass (some c) w).handle).map
                fun rest => { rest with events := (r.pass (some c) w).events ++ rest.events }) := by
  have hloop : ∀ ws fuel i, ws i = w → (r.pass (some c) w).next = .again →
      gc.StartFrom (some c) ws (fuel + 1) i r =
        (gc.StartFrom (some c) ws fuel (i + 1) (r.pass (some c) w).handle).map
          fun rest => { rest with events := (r.pass (some c) w).events ++ rest.events } := by
    intro ws fuel i hw hn
    subst hw
    exact StartFrom_again (some c) ws fuel i r hn
  cases hurl : w.env "GIT_URL" with
  | none =>
    have hp : (r.pass (some c) w).next = .again := by simp [gc.pass, hd, hurl]
    refine ⟨by simp, by simp [gc.pass, hd, hurl], by simp, by simp, by simp [hp], ?_⟩
    intro _
    exact ⟨by simp [gc.pass, hd, hurl], hp, fun ws fuel i hw => hloop ws fuel i hw hp⟩
  | some url =>
    rcases hget : w.Get k { Namespace := secretNamespace w, Name := secretName w } with
      ⟨secret, _ | e⟩
    · cases hnew : w.NewClient url (getClientAuth secret) with
      | error e =>
        have hp : (r.pass (some c) w).next = .again := by
          simp [gc.pass, hd, hurl, hk, hget, hnew]
        refine ⟨?_, by simp, by simp, ?_, ?_, ?_⟩
        · intro gitURL secret2 g h1 h2 h3
          simp only [Option.some.injEq] at h1
          simp only [Prod.mk.injEq, and_true] at h2
          subst h1 h2
          rw [hnew] at h3
          cases h3
        · intro gitURL secret2 e2 h1 h2 h3
          simp only [Option.some.injEq] at h1
          simp only [Prod.mk.injEq, and_true] at h2
          subst h1 h2
          rw [hnew] at h3
          cases h3
          simp [gc.pass, hd, hurl, hk, hget, hnew]
        · rw [hp]
          constructor
          · intro h
            cases h
          · rintro ⟨gitURL, secret2, g, h1, h2, h3⟩
            simp only [Option.some.injEq] at h1
            simp only [Prod.mk.injEq, and_true] at h2
            subst h1 h2
            rw [hnew] at h3
            cases h3
        · intro _
          exact ⟨by simp [gc.pass, hd, hurl, hk, hget, hnew], hp,
            fun ws fuel i hw => hloop ws fuel i hw hp⟩
      | ok g =>
        have hp : (r.pass (some c) w).next = .ready := by
          simp [gc.pass, hd, hurl, hk, hget, hnew]
        refine ⟨?_, by simp, by simp, ?_, ?_, ?_⟩
        · intro gitURL secret2 g2 h1 h2 h3
          simp only [Option.some.injEq] at h1
          simp only [Prod.mk.injEq, and_true] at h2
          subst h1 h2
          rw [hnew] at h3
          cases h3
          refine ⟨by simp [gc.pass, hd, hurl, hk, hget, hnew], hp, ?_⟩
          intro ws fuel i hw
          subst hw
          exact StartFrom_stop (some c) ws fuel i r (by rw [hp]; decide)
        · intro gitURL secret2 e2 h1 h2 h3
          simp only [Option.some.injEq] at h1
          simp only [Prod.mk.injEq, and_true] at h2
          subst h1 h2
          rw [hnew] at h3
          cases h3
        · rw [hp]
          exact ⟨fun _ => ⟨url, secret, g, rfl, rfl, hnew⟩, fun _ => rfl⟩
        · intro h
          exact absurd hp h
    · have hp : (r.pass (some c) w).next = .again := by
        simp [gc.pass, hd, hurl, hk, hget]
      refine ⟨by simp, by simp, ?_, by simp, by simp [hp], ?_⟩
      · intro gitURL secret2 e2 h1 h2
        simp only [Prod.mk.injEq, Option.some.injEq] at h2
        obtain ⟨_, h2⟩ := h2
        subst h2
        simp [gc.pass, hd, hurl, hk, hget]
      · intro _
        exact ⟨by simp [gc.pass, hd, hurl, hk, hget], hp,
          fun ws fuel i hw => hloop ws fuel i hw hp⟩

/-- Witness of C9: on the handle `GetClient` builds, an attempt in provisioned surroundings
makes the handle Ready and ends the loop; an attempt without `GIT_URL` stops after the
lookup. -/
theorem C9_bootstrap_attempt_witness :
    ((gc.notReady.pass (some { id := 1, logger := { sink := 1 } })
          World.provisioned).handle.IsInitialized = true ∧
        (gc.notReady.pass (some { id := 1, logger := { sink := 1 } })
          World.provisioned).next = .ready) ∧
      (gc.notReady.pass (some { id := 1, logger := { sink := 1 } }) World.noURL).events =
        [.sleep 5, .lookupEnv "GIT_URL",
          .logError "git url not defined" "cannot connect to git server"] := by
  have h := (C9_bootstrap_attempt gc.notReady { id := 1 } { id := 1, logger := { sink := 1 } }
    World.provisioned rfl rfl).1 "http://gitea:3000"
    { Data := [("username", "gitea"), ("password", "secret")] } sdk.Client.accepting
    (by decide) rfl rfl
  refine ⟨⟨?_, h.2.1⟩, ?_⟩
  · rw [gc.IsInitialized, h.1]
    rfl
  · exact (C9_bootstrap_attempt gc.notReady { id := 1 } { id := 1, logger := { sink := 1 } }
      World.noURL rfl rfl).2.1 rfl

/-- A pass that begins with the context already cancelled returns at once: its only step is
the exit message and the handle is left as it was. -/
theorem pass_of_done (r : gc) (c : Context) (w : World) (hd : w.done = true) :
    r.pass (some c) w =
      { handle := r
        events := [.printf "controller manager context cancelled: Exit\n"]
        next := .exit } := by
  simp [gc.pass, hd]

/-- C10 fails on the code: the context is live at the `select` and is cancelled while the pass
sleeps. Nothing checks it after the sleep: the attempt runs in full (configuration read,
secret fetch, client construction), stores the client and makes the handle Ready. -/
theorem C10_counterexample :
    World.cancelledAsleep.done = false ∧ World.cancelledAsleep.doneAfterSleep = true ∧
      (gc.notReady.pass (some { id := 1, logger := { sink := 1 } })
        World.cancelledAsleep).next = .ready ∧
      (gc.notReady.pass (some { id := 1, logger := { sink := 1 } })
        World.cancelledAsleep).handle.IsInitialized = true ∧
      (gc.notReady.pass (some { id := 1, logger := { sink := 1 } })
        World.cancelledAsleep).events =
        [.sleep 5, .lookupEnv "GIT_URL", .getenv "POD_NAMESPACE", .lookupEnv "GIT_NAMESPACE",
          .lookupEnv "GIT_SECRET_NAME",
          .secretGet { Namespace := "", Name := "git-user-secret" },
          .newClient "http://gitea:3000" { username := "gitea", password := "secret" },
          .logInfo "gitea init done"] := by
  refine ⟨rfl, rfl, ?_, ?_, ?_⟩ <;> rfl

/-- C10 as amended: cancellation is checked once per pass, at the top of the loop, before the
sleep. A pass that begins with the context already cancelled returns from `Start` at once:
only the exit message, no sleep, no configuration read, no secret fetch, no client
construction, the handle as it was; this at every pass and for every state of the handle.
What the context does during the sleep changes nothing in that pass. When the context is
cancelled at the top of the next pass, `Start` returns there: after a cancellation at most
the attempt of the pass in progress still runs. -/
theorem C10_cancellation_checked_at_loop_top (r : gc) (c : Context) (ws : Nat → World)
    (fuel i : Nat) :
    ((ws i).done = true →
        r.pass (some c) (ws i) =
            { handle := r
              events := [.printf "controller manager context cancelled: Exit\n"]
              next := .exit } ∧
          gc.StartFrom (some c) ws (fuel + 1) i r =
            some { handle := r
                   events := [.printf "controller manager context cancelled: Exit\n"]
                   next := .exit }) ∧
      (∀ b, r.pass (some c) { ws i with doneAfterSleep := b } = r.pass (some c) (ws i)) ∧
      ((ws (i + 1)).done = true →
        gc.StartFrom (some c) ws (fuel + 2) i r =
          some (if (r.pass (some c) (ws i)).next = .again then
              { handle := (r.pass (some c) (ws i)).handle
                events := (r.pass (some c) (ws i)).events ++
                  [.printf "controller manager context cancelled: Exit\n"]
                next := .exit }
            else r.pass (some c) (ws i))) := by
  refine ⟨?_, ?_, ?_⟩
  · intro hd
    have hp := pass_of_done r c (ws i) hd
    refine ⟨hp, ?_⟩
    rw [StartFrom_stop (some c) ws fuel i r (by rw [hp]; simp), hp]
  · intro b
    rfl
  · intro hd
    by_cases hn : (r.pass (some c) (ws i)).next = .again
    · have hp := pass_of_done (r.pass (some c) (ws i)).handle c (ws (i + 1)) hd
      rw [StartFrom_again (some c) ws (fuel + 1) i r hn,
        StartFrom_stop (some c) ws fuel (i + 1) _ (by rw [hp]; simp), hp, if_pos hn]
      rfl
    · rw [StartFrom_stop (some c) ws (fuel + 1) i r hn, if_neg hn]

/-- Witness of the amended C10: a context cancelled before the first pass of a Ready handle;
and a context cancelled during the sleep of a pass that finds no `GIT_URL`, where `Start`
returns at the top of the next pass. -/
theorem C10_cancellation_checked_at_loop_top_witness :
    ((gc.readyOn sdk.Client.accepting).Start (some { id := 1, logger := { sink := 1 } })
          (fun _ => World.cancelled) 1).map (fun p => (p.events, p.next)) =
        some ([.printf "controller manager context cancelled: Exit\n"], .exit) ∧
      (gc.notReady.Start (some { id := 1, logger := { sink := 1 } })
          (fun k => if k = 0 then World.cancelledAsleepNoURL else World.cancelled) 2).map
          (fun p => (p.events, p.next)) =
        some ([.sleep 5, .lookupEnv "GIT_URL",
          .logError "git url not defined" "cannot connect to git server",
          .printf "controller manager context cancelled: Exit\n"], .exit) := by
  constructor
  · have h := ((C10_cancellation_checked_at_loop_top (gc.readyOn sdk.Client.accepting)
      { id := 1, logger := { sink := 1 } } (fun _ => World.cancelled) 0 0).1 rfl).2
    simp only [gc.Start]
    rw [h]
    rfl
  · have h := (C10_cancellation_checked_at_loop_top gc.notReady
      { id := 1, logger := { sink := 1 } }
      (fun k => if k = 0 then World.cancelledAsleepNoURL else World.cancelled) 0 0).2.2 rfl
    simp only [gc.Start]
    rw [h]
    rfl

/-! ## Bootstrap configuration -/

theorem secretNamespace_eq (w : World) :
    secretNamespace w = (w.env "GIT_NAMESPACE").getD ((w.env "POD_NAMESPACE").getD "") := by
  unfold secretNamespace getenv
  cases w.env "GIT_NAMESPACE" <;> rfl

theorem secretName_eq (w : World) :
    secretName w = (w.env "GIT_SECRET_NAME").getD "git-user-secret" := by
  unfold secretName
  cases w.env "GIT_SECRET_NAME" <;> rfl

/-- C11: in an attempt that finds `GIT_URL`, the one secret fetch is at namespace
`GIT_NAMESPACE` if defined, else the value of `POD_NAMESPACE`, and name `GIT_SECRET_NAME` if
defined, else `git-user-secret`; when the fetch succeeds the one client construction is
from `GIT_URL` with basic-auth user name and password read from the `username` and
`password` fields of the fetched secret, and its result is what the handle stores. -/
theorem C11_bootstrap_configuration (r : gc) (k : K8sClient) (c : Context) (w : World)
    (gitURL : String) (hk : r.client.Client = some k) (hd : w.done = false)
    (hurl : w.env "GIT_URL" = some gitURL) :
    (∀ key, Event.secretGet key ∈ (r.pass (some c) w).events ↔
        key = { Namespace := (w.env "GIT_NAMESPACE").getD ((w.env "POD_NAMESPACE").getD "")
                Name := (w.env "GIT_SECRET_NAME").getD "git-user-secret" }) ∧
      ∀ secret,
        w.Get k { Namespace := (w.env "GIT_NAMESPACE").getD ((w.env "POD_NAMESPACE").getD "")
                  Name := (w.env "GIT_SECRET_NAME").getD "git-user-secret" } = (secret, none) →
        (∀ url auth, Event.newClient url auth ∈ (r.pass (some c) w).events ↔
          (url = gitURL ∧
            auth = { username := (secret.Data.lookup "username").getD ""
                     password := (secret.Data.lookup "password").getD "" })) ∧
        ∀ g, w.NewClient gitURL
              { username := (secret.Data.lookup "username").getD ""
                password := (secret.Data.lookup "password").getD "" } = .ok g →
          (r.pass (some c) w).handle.giteaClient = some g := by
  rw [← secretNamespace_eq, ← secretName_eq]
  have hauth : ∀ secret : Secret,
      ({ username := (secret.Data.lookup "username").getD ""
         password := (secret.Data.lookup "password").getD "" } : sdk.BasicAuth) =
        getClientAuth secret := fun _ => rfl
  rcases hget : w.Get k { Namespace := secretNamespace w, Name := secretName w } with
    ⟨secret, _ | e⟩
  · cases hnew : w.NewClient gitURL (getClientAuth secret) with
    | error e =>
      refine ⟨?_, ?_⟩
      · intro key
        simp [gc.pass, hd, hurl, hk, hget, hnew, eq_comm]
      · intro secret2 h2
        simp only [Prod.mk.injEq, and_true] at h2
        subst h2
        rw [hauth]
        refine ⟨?_, ?_⟩
        · intro url auth
          simp [gc.pass, hd, hurl, hk, hget, hnew, eq_comm]
        · intro g hg
          rw [hnew] at hg
          cases hg
    | ok g =>
      refine ⟨?_, ?_⟩
      · intro key
        simp [gc.pass, hd, hurl, hk, hget, hnew, eq_comm]
      · intro secret2 h2
        simp only [Prod.mk.injEq, and_true] at h2
        subst h2
        rw [hauth]
        refine ⟨?_, ?_⟩
        · intro url auth
          simp [gc.pass, hd, hurl, hk, hget, hnew, eq_comm]
        · intro g2 hg
          rw [hnew] at hg
          cases hg
          simp [gc.pass, hd, hurl, hk, hget, hnew]
  · refine ⟨?_, ?_⟩
    · intro key
      simp [gc.pass, hd, hurl, hk, hget, eq_comm]
    · intro secret2 h2
      simp at h2

/-- Witness of C11: with both overrides set the secret `gitea-creds` is fetched in namespace
`gitea`, and the client is built with the user name and password of that secret. -/
theorem C11_bootstrap_configuration_witness :
    Event.secretGet { Namespace := "gitea", Name := "gitea-creds" } ∈
        (gc.notReady.pass (some { id := 1, logger := { sink := 1 } }) World.overridden).events ∧
      Event.newClient "http://gitea:3000" { username := "nephio", password := "secret" } ∈
        (gc.notReady.pass (some { id := 1, logger := { sink := 1 } }) World.overridden).events := by
  have h := C11_bootstrap_configuration gc.notReady { id := 1 }
    { id := 1, logger := { sink := 1 } } World.overridden "http://gitea:3000" rfl rfl
    (by decide)
  refine ⟨(h.1 _).2 (by decide), ?_⟩
  exact ((h.2 { Data := [("username", "nephio"), ("password", "secret")] } (by decide)).1
    _ _).2 ⟨rfl, by decide⟩

/-! ## Replies and requests of the capability methods -/

/-- C12: on a Ready handle, when the remote call succeeds (data and reply envelope, no
error) `GetRepo`, `CreateRepo` and `EditRepo` return a repository with the remote clone URL,
`GetMyUserInfo` returns a user with the remote user name, and each returns a nil error. -/
theorem C12_success_carries_identity (r : gc) (c : sdk.Client) (hr : r.giteaClient = some c)
    (rp : sdk.Response) :
    (∀ u, c.GetMyUserInfo = (some u, some rp, none) →
        r.GetMyUserInfo.2 =
          .returned (some { UserName := u.UserName }, some { Response := rp.Response }, none)) ∧
      (∀ userName repoCRName d, c.GetRepo userName repoCRName = (some d, some rp, none) →
        (r.GetRepo userName repoCRName).2 =
          .returned (some { CloneURL := d.CloneURL }, some { Response := rp.Response }, none)) ∧
      (∀ o d, c.CreateRepo (createRepoRequest o) = (some d, some rp, none) →
        (r.CreateRepo o).2 =
          .returned (some { CloneURL := d.CloneURL }, some { Response := rp.Response }, none)) ∧
      (∀ userName repoCRName o d,
        c.EditRepo userName repoCRName (editRepoRequest o) = (some d, some rp, none) →
        (r.EditRepo userName repoCRName o).2 =
          .returned (some { CloneURL := d.CloneURL }, some { Response := rp.Response }, none)) := by
  refine ⟨?_, ?_, ?_, ?_⟩
  · intro u h; simp [gc.GetMyUserInfo, hr, h, wrapResponse, Outcome.bind]
  · intro userName repoCRName d h; simp [gc.GetRepo, hr, h, wrapResponse, Outcome.bind]
  · intro o d h; simp [gc.CreateRepo, hr, h, wrapResponse, Outcome.bind]
  · intro userName repoCRName o d h; simp [gc.EditRepo, hr, h, wrapResponse, Outcome.bind]

/-- Witness of C12: the accepting remote side. -/
theorem C12_success_carries_identity_witness :
    (gc.readyOn sdk.Client.accepting).GetMyUserInfo.2 =
        .returned (some { UserName := "gitea" },
          some { Response := some { StatusCode := 200, Status := "200" } }, none) ∧
      ((gc.readyOn sdk.Client.accepting).CreateRepo
          { Name := "repo-name", Description := "", Private := false, IssueLabels := "",
            AutoInit := false, Template := false, Gitignores := "", License := "",
            Readme := "", DefaultBranch := "", TrustModel := "" }).2 =
        .returned (some { CloneURL := "http://gitea/gitea/" ++ "repo-name" ++ ".git" },
          some { Response := some { StatusCode := 201, Status := "201" } }, none) :=
  ⟨(C12_success_carries_identity (gc.readyOn sdk.Client.accepting) sdk.Client.accepting rfl
      (sdk.Response.withStatus 200 "200")).1 { UserName := "gitea" } rfl,
    (C12_success_carries_identity (gc.readyOn sdk.Client.accepting) sdk.Client.accepting rfl
      (sdk.Response.withStatus 201 "201")).2.2.1
      { Name := "repo-name", Description := "", Private := false, IssueLabels := "",
        AutoInit := false, Template := false, Gitignores := "", License := "",
        Readme := "", DefaultBranch := "", TrustModel := "" }
      { CloneURL := "http://gitea/gitea/" ++ "repo-name" ++ ".git" } rfl⟩

/-- C17, the code at the failing input: an edit option that sets `Website`, `DefaultBranch`
and `Archived` reaches the remote side as an edit request with no field set. -/
theorem C17_edit_fields_dropped :
    ((gc.readyOn sdk.Client.accepting).EditRepo "gitea" "repo-name"
        { gittypes.EditRepoOption.zero with
          Website := some "https://nephio.org", DefaultBranch := some "main",
          Archived := some true }).1 =
        [.EditRepo "gitea" "repo-name" sdk.EditRepoOption.zero] ∧
      sdk.EditRepoOption.zero.Website ≠ some "https://nephio.org" ∧
      sdk.EditRepoOption.zero.DefaultBranch ≠ some "main" ∧
      sdk.EditRepoOption.zero.Archived ≠ some true := by
  refine ⟨rfl, ?_, ?_, ?_⟩ <;> simp [sdk.EditRepoOption.zero]

/-- The token loop of `ListAccessTokens` over a reply without nil entries: the slice grows
by one neutral token per remote token, in order. -/
theorem appendTokens_map (ts : List sdk.AccessToken)
    (acc : Option (List (Option gittypes.AccessToken))) :
    ∃ result, appendTokens acc (ts.map some) = .returned result ∧
      result.getD [] = acc.getD [] ++ ts.map fun t => some (neutralToken t) := by
  induction ts generalizing acc with
  | nil => exact ⟨acc, rfl, by simp⟩
  | cons t ts ih =>
    obtain ⟨result, h1, h2⟩ := ih (some (acc.getD [] ++ [some (neutralToken t)]))
    refine ⟨result, ?_, ?_⟩
    · simpa [appendTokens, neutralToken] using h1
    · simpa using h2

/-- C18 fails on the code: the listed remote token has scope `repo`, the token
`ListAccessTokens` returns for it has no scopes. -/
theorem C18_counterexample :
    sdk.Client.accepting.ListAccessTokens
        (listAccessTokensRequest { toListOptions := { Page := 1, PageSize := 10 } }) =
        (some [some { ID := 123, Name := "test-token-test-ns", Token := "",
                      TokenLastEight := "89abcdef", Scopes := some ["repo"] }],
          some (sdk.Response.withStatus 200 "200"), none) ∧
      ((gc.readyOn sdk.Client.accepting).ListAccessTokens
          { toListOptions := { Page := 1, PageSize := 10 } }).2 =
        .returned (some [some { ID := 123, Name := "test-token-test-ns", Token := "",
                                TokenLastEight := "", Scopes := none }],
          some { Response := some { StatusCode := 200, Status := "200" } }, none) ∧
      (none : Option (List String)) ≠ some ["repo"] := by
  refine ⟨rfl, rfl, by simp⟩

/-- C18 as amended: on a Ready handle `ListAccessTokens` sends one request with the `Page`
and `PageSize` of the options; for a successful reply (no nil entry) it returns a list of
the same length and order whose i-th element carries the ID, the name and the token value
of the i-th remote token, and nothing else of it (no scopes, no last-eight digest). -/
theorem C18_ListAccessTokens_maps_tokens (r : gc) (c : sdk.Client)
    (hr : r.giteaClient = some c) (opts : gittypes.ListAccessTokensOptions)
    (tokens : Option (List (Option sdk.AccessToken))) (ts : List sdk.AccessToken)
    (rp : sdk.Response)
    (hreply : c.ListAccessTokens (listAccessTokensRequest opts) = (tokens, some rp, none))
    (hts : tokens.getD [] = ts.map some) :
    (r.ListAccessTokens opts).1 =
        [.ListAccessTokens { toListOptions := { Page := opts.Page, PageSize := opts.PageSize } }] ∧
      ∃ result, (r.ListAccessTokens opts).2 =
          .returned (result, some { Response := rp.Response }, none) ∧
        result.getD [] = ts.map fun t =>
          some { ID := t.ID, Name := t.Name, Token := t.Token, TokenLastEight := "",
                 Scopes := none } := by
  obtain ⟨result, h1, h2⟩ := appendTokens_map ts none
  refine ⟨by simp [gc.ListAccessTokens, hr, listAccessTokensRequest], result, ?_, ?_⟩
  · simp [gc.ListAccessTokens, hr, hreply, hts, h1, wrapResponse, Outcome.bind]
  · simpa [neutralToken] using h2

/-- Witness of the amended C18 on the accepting remote side. -/
theorem C18_ListAccessTokens_maps_tokens_witness :
    ((gc.readyOn sdk.Client.accepting).ListAccessTokens
        { toListOptions := { Page := 2, PageSize := 10 } }).1 =
      [.ListAccessTokens { toListOptions := { Page := 2, PageSize := 10 } }] :=
  (C18_ListAccessTokens_maps_tokens (gc.readyOn sdk.Client.accepting) sdk.Client.accepting rfl
    { toListOptions := { Page := 2, PageSize := 10 } }
    (some [some { ID := 123, Name := "test-token-test-ns", Token := "",
                  TokenLastEight := "89abcdef", Scopes := some ["repo"] }])
    [{ ID := 123, Name := "test-token-test-ns", Token := "",
       TokenLastEight := "89abcdef", Scopes := some ["repo"] }]
    (sdk.Response.withStatus 200 "200") rfl rfl).1

/-- C19, the code at the failing input: on a Ready handle whose remote side answers the
token calls with an error and no reply envelope, `ListAccessTokens`, `CreateAccessToken` and
`DeleteAccessToken` end in a nil dereference instead of returning the error. -/
theorem C19_nil_response_dereferenced :
    (gc.readyOn sdk.Client.noBasicAuth).ListAccessTokens
        { toListOptions := { Page := 0, PageSize := 0 } } =
        ([.ListAccessTokens { toListOptions := { Page := 0, PageSize := 0 } }], .nilDeref) ∧
      ((gc.readyOn sdk.Client.noBasicAuth).CreateAccessToken
        { Name := "test-token-test-ns", Scopes := none }).2 = .nilDeref ∧
      ((gc.readyOn sdk.Client.noBasicAuth).DeleteAccessToken (.int64 123)).2 = .nilDeref :=
  ⟨rfl, rfl, rfl⟩

/-! ## Convergence -/

/-- C13: once the caller identity resolves, `upsertRepo` calls `EditRepo` and never
`CreateRepo` when `GetRepo` succeeds, calls `CreateRepo` and never `EditRepo` when `GetRepo`
fails with not-found, and in both cases returns an error exactly when that call fails. -/
theorem C13_upsert_edit_or_create (notFound : git.Failure → Bool) (client : git.Client)
    (cr : RepositoryDescriptor) (u : gittypes.User) (hu : client.GetMyUserInfo = .ok u) :
    (∀ repo, client.GetRepo u.UserName cr.Name = .ok repo →
        (upsertRepo notFound client cr).1 =
            [.GetMyUserInfo, .GetRepo u.UserName cr.Name,
              .EditRepo u.UserName cr.Name (editRequestOf cr)] ∧
          (∀ o, git.Call.CreateRepo o ∉ (upsertRepo notFound client cr).1) ∧
          ((upsertRepo notFound client cr).2.2 ≠ none ↔
            ∃ f, client.EditRepo u.UserName cr.Name (editRequestOf cr) = .error f)) ∧
      (∀ f, client.GetRepo u.UserName cr.Name = .error f → notFound f = true →
        (upsertRepo notFound client cr).1 =
            [.GetMyUserInfo, .GetRepo u.UserName cr.Name, .CreateRepo (createRequestOf cr)] ∧
          (∀ n m o, git.Call.EditRepo n m o ∉ (upsertRepo notFound client cr).1) ∧
          ((upsertRepo notFound client cr).2.2 ≠ none ↔
            ∃ g, client.CreateRepo (createRequestOf cr) = .error g)) := by
  refine ⟨?_, ?_⟩
  · intro repo hget
    cases hedit : client.EditRepo u.UserName cr.Name (editRequestOf cr) <;>
      simp [upsertRepo, hu, hget, hedit]
  · intro f hget hnf
    cases hcreate : client.CreateRepo (createRequestOf cr) <;>
      simp [upsertRepo, hu, hget, hnf, hcreate]

/-- Witness of C13: the repository is absent (404), so it is created, without error. -/
theorem C13_upsert_edit_or_create_witness :
    (upsertRepo notFoundByStatus git.Client.oneToken RepositoryDescriptor.sample).1 =
        [.GetMyUserInfo, .GetRepo "gitea" "repo-name",
          .CreateRepo (createRequestOf RepositoryDescriptor.sample)] ∧
      (upsertRepo notFoundByStatus git.Client.repoPresent RepositoryDescriptor.sample).1 =
        [.GetMyUserInfo, .GetRepo "gitea" "repo-name",
          .EditRepo "gitea" "repo-name" (editRequestOf RepositoryDescriptor.sample)] :=
  ⟨((C13_upsert_edit_or_create notFoundByStatus git.Client.oneToken
      RepositoryDescriptor.sample { UserName := "gitea" } rfl).2
      { resp := some { Response := some { StatusCode := 404, Status := "404" } }
        err := "repo does not exist" } rfl rfl).1,
    ((C13_upsert_edit_or_create notFoundByStatus git.Client.repoPresent
      RepositoryDescriptor.sample { UserName := "gitea" } rfl).1
      { CloneURL := "http://gitea/" ++ "gitea" ++ "/" ++ "repo-name" ++ ".git" } rfl).1⟩

/-- C14: when `GetMyUserInfo` fails, `upsertRepo` and `deleteRepo` each return a non-nil
error and `GetMyUserInfo` is the only client call they make. -/
theorem C14_identity_failure_stops (notFound : git.Failure → Bool) (client : git.Client)
    (cr : RepositoryDescriptor) (f : git.Failure) (hu : client.GetMyUserInfo = .error f) :
    (upsertRepo notFound client cr).1 = [.GetMyUserInfo] ∧
      (upsertRepo notFound client cr).2.2 ≠ none ∧
      (upsertRepo notFound client cr).2.1 = cr ∧
      (deleteRepo notFound client cr).1 = [.GetMyUserInfo] ∧
      (deleteRepo notFound client cr).2 ≠ none := by
  simp [upsertRepo, deleteRepo, hu]

/-- Witness of C14: the identity lookup fails. -/
theorem C14_identity_failure_stops_witness :
    (upsertRepo notFoundByStatus git.Client.noIdentity RepositoryDescriptor.sample).1 =
        [.GetMyUserInfo] ∧
      (deleteRepo notFoundByStatus git.Client.noIdentity RepositoryDescriptor.sample).1 =
        [.GetMyUserInfo] :=
  ⟨(C14_identity_failure_stops notFoundByStatus git.Client.noIdentity
      RepositoryDescriptor.sample { resp := none, err := "error getting User Information" }
      rfl).1,
    (C14_identity_failure_stops notFoundByStatus git.Client.noIdentity
      RepositoryDescriptor.sample { resp := none, err := "error getting User Information" }
      rfl).2.2.2.1⟩

/-- When every page request succeeds, the listing makes exactly one `ListAccessTokens` call
per request and holds exactly the tokens of the pages returned. -/
theorem listAllTokens_ok (client : git.Client) (pages : List gittypes.ListAccessTokensOptions)
    (hpages : ∀ opts ∈ pages, ∃ page, client.ListAccessTokens opts = .ok page) :
    ∃ tokens, listAllTokens client pages = (pages.map .ListAccessTokens, .ok tokens) ∧
      ∀ t, t ∈ tokens ↔
        ∃ opts ∈ pages, ∃ page, client.ListAccessTokens opts = .ok page ∧ t ∈ page := by
  induction pages with
  | nil => exact ⟨[], rfl, by simp⟩
  | cons opts rest ih =>
    obtain ⟨page, hpage⟩ := hpages opts (List.mem_cons_self _ _)
    obtain ⟨more, hmore, hmem⟩ := ih fun o ho => hpages o (List.mem_cons_of_mem _ ho)
    refine ⟨page ++ more, by simp [listAllTokens, hpage, hmore], ?_⟩
    intro t
    simp only [List.mem_append, hmem, List.mem_cons, exists_eq_or_imp]
    constructor
    · rintro (h | h)
      · exact Or.inl ⟨page, hpage, h⟩
      · exact Or.inr h
    · rintro (⟨page2, h2, ht⟩ | h)
      · rw [hpage] at h2
        cases h2
        exact Or.inl ht
      · exact Or.inr h

/-- C15: the remote token name is the logical name, a dash and the namespace. When the
listing of existing tokens (every page request answered) holds a token of that name,
`createToken` returns success after the listing calls alone: no `GetMyUserInfo` and no
`CreateAccessToken` call, nothing stored. When no listed token has that name and the caller
identity resolves, the next calls are `GetMyUserInfo` and `CreateAccessToken` under exactly
that name, with the requested scopes. -/
theorem C15_createToken_idempotent (client : git.Client)
    (persist : NamespacedName → String → Option GoError)
    (pages : List gittypes.ListAccessTokensOptions) (cr : TokenDescriptor)
    (hpages : ∀ opts ∈ pages, ∃ page, client.ListAccessTokens opts = .ok page) :
    ((∃ opts ∈ pages, ∃ page, client.ListAccessTokens opts = .ok page ∧
          ∃ t ∈ page, t.Name = cr.Name ++ "-" ++ cr.Namespace) →
        createToken client persist pages cr =
            { calls := pages.map .ListAccessTokens, stored := [], err := none } ∧
          git.Call.GetMyUserInfo ∉ (createToken client persist pages cr).calls ∧
          ∀ o, git.Call.CreateAccessToken o ∉ (createToken client persist pages cr).calls) ∧
      ((∀ opts ∈ pages, ∀ page, client.ListAccessTokens opts = .ok page →
          ∀ t ∈ page, t.Name ≠ cr.Name ++ "-" ++ cr.Namespace) →
        ∀ u, client.GetMyUserInfo = .ok u →
          (createToken client persist pages cr).calls =
            pages.map .ListAccessTokens ++ [.GetMyUserInfo,
              .CreateAccessToken { Name := cr.Name ++ "-" ++ cr.Namespace
                                   Scopes := cr.Scopes }]) := by
  obtain ⟨tokens, hlist, hmem⟩ := listAllTokens_ok client pages hpages
  refine ⟨?_, ?_⟩
  · rintro ⟨opts, hopts, page, hpage, t, ht, hname⟩
    have hany : tokens.any (fun t => t.Name == tokenName cr) = true := by
      rw [List.any_eq_true]
      exact ⟨t, (hmem t).2 ⟨opts, hopts, page, hpage, ht⟩, by simpa [tokenName] using hname⟩
    have hrun : createToken client persist pages cr =
        { calls := pages.map .ListAccessTokens, stored := [], err := none } := by
      simp [createToken, hlist, hany]
    rw [hrun]
    exact ⟨rfl, by simp, by simp⟩
  · intro hnone u hu
    have hany : tokens.any (fun t => t.Name == tokenName cr) = false := by
      rw [List.any_eq_false]
      intro t ht
      obtain ⟨opts, hopts, page, hpage, htp⟩ := (hmem t).1 ht
      simpa [tokenName] using hnone opts hopts page hpage t htp
    cases hcreate : client.CreateAccessToken { Name := tokenName cr, Scopes := cr.Scopes } with
    | error f =>
      have hrun : createToken client persist pages cr =
          { calls := pages.map .ListAccessTokens ++ [.GetMyUserInfo,
              .CreateAccessToken { Name := tokenName cr, Scopes := cr.Scopes }]
            stored := []
            err := some ("cannot create access token: " ++ f.err) } := by
        simp [createToken, hlist, hany, hu, hcreate]
      rw [hrun]
      rfl
    | ok token =>
      cases hp : persist { Namespace := cr.Namespace, Name := cr.Name } token.Token with
      | none =>
        have hrun : createToken client persist pages cr =
            { calls := pages.map .ListAccessTokens ++ [.GetMyUserInfo,
                .CreateAccessToken { Name := tokenName cr, Scopes := cr.Scopes }]
              stored := [({ Namespace := cr.Namespace, Name := cr.Name }, token.Token)]
              err := none } := by
          simp [createToken, hlist, hany, hu, hcreate, hp]
        rw [hrun]
        rfl
      | some e =>
        have hrun : createToken client persist pages cr =
            { calls := pages.map .ListAccessTokens ++ [.GetMyUserInfo,
                .CreateAccessToken { Name := tokenName cr, Scopes := cr.Scopes }]
              stored := []
              err := some ("cannot store access token: " ++ e) } := by
          simp [createToken, hlist, hany, hu, hcreate, hp]
        rw [hrun]
        rfl

/-- Witness of C15: `test-token` in `test-ns` is named `test-token-test-ns`, which the account
lists in reply to every page request: success after the listing calls, nothing created,
whether one page is asked for or two. -/
theorem C15_createToken_idempotent_witness :
    tokenName { Name := "test-token", Namespace := "test-ns", Scopes := none } =
        "test-token-test-ns" ∧
      createToken git.Client.oneToken (fun _ _ => none)
          [{ toListOptions := { Page := 0, PageSize := 0 } }]
          { Name := "test-token", Namespace := "test-ns", Scopes := none } =
        { calls := [.ListAccessTokens { toListOptions := { Page := 0, PageSize := 0 } }]
          stored := [], err := none } ∧
      createToken git.Client.oneToken (fun _ _ => none)
          [{ toListOptions := { Page := 1, PageSize := 10 } },
           { toListOptions := { Page := 2, PageSize := 10 } }]
          { Name := "test-token", Namespace := "test-ns", Scopes := none } =
        { calls := [.ListAccessTokens { toListOptions := { Page := 1, PageSize := 10 } },
                    .ListAccessTokens { toListOptions := { Page := 2, PageSize := 10 } }]
          stored := [], err := none } :=
  ⟨by decide,
    ((C15_createToken_idempotent git.Client.oneToken (fun _ _ => none)
      [{ toListOptions := { Page := 0, PageSize := 0 } }]
      { Name := "test-token", Namespace := "test-ns", Scopes := none }
      (fun _ _ => ⟨_, rfl⟩)).1
      ⟨_, List.mem_singleton.mpr rfl, _, rfl, _, List.mem_singleton.mpr rfl, by decide⟩).1,
    ((C15_createToken_idempotent git.Client.oneToken (fun _ _ => none)
      [{ toListOptions := { Page := 1, PageSize := 10 } },
       { toListOptions := { Page := 2, PageSize := 10 } }]
      { Name := "test-token", Namespace := "test-ns", Scopes := none }
      (fun _ _ => ⟨_, rfl⟩)).1
      ⟨_, List.mem_cons_self _ _, _, rfl, _, List.mem_singleton.mpr rfl, by decide⟩).1⟩

/-! ## Concurrent callers of `GetClient` -/

theorem System.Inv.init (n : Nat) : System.init.Inv n := by
  refine ⟨Or.inl ⟨rfl, rfl, rfl⟩, ?_, ?_, ?_, ?_, ?_⟩
  · intro g hg; simp [System.init, Proc.fresh] at hg
  · intro i; simp [System.init, Pc.held]
  · intro i _; rfl
  · intro i; simp [System.init, localInv]
  · intro h; simp [System.init, Proc.fresh] at h

/-- The local knowledge of a caller only depends on `singleInstance` and the goroutines. -/
theorem localInv_congr (p q : Proc) (h1 : q.singleInstance = p.singleInstance)
    (h2 : q.goroutines = p.goroutines) (pc : Pc) : localInv q pc ↔ localInv p pc := by
  cases pc <;> simp [localInv, h1, h2]

/-- The invariant survives a change of the shared state that leaves `singleInstance`, the heap
and the goroutines alone (a log line). -/
theorem System.Inv.withProc {n : Nat} {s : System} (h : s.Inv n) (p : Proc)
    (h1 : p.singleInstance = s.proc.singleInstance) (h2 : p.heap = s.proc.heap)
    (h3 : p.goroutines = s.proc.goroutines) : (s.withProc p).Inv n := by
  refine ⟨?_, ?_, h.owns, h.idle, ?_, ?_⟩
  · simpa [System.withProc, h1, h2, h3] using h.shape
  · simpa [System.withProc, h3] using h.handle
  · intro i
    exact (localInv_congr s.proc p h1 h3 _).2 (h.loc i)
  · simpa [System.withProc, h1, h3] using h.pending

/-- The invariant survives a move of caller `i` that keeps its hold on the lock as it was,
arrives where its local knowledge holds, and does not leave `launch`. -/
theorem System.Inv.goto {n : Nat} {s : System} (h : s.Inv n) (i : Nat) (pc : Pc) (hi : i < n)
    (hheld : pc.held = (s.pcs i).held) (hloc : localInv s.proc pc)
    (hlaunch : s.pcs i ≠ .launch) : (s.goto i pc).Inv n := by
  refine ⟨h.shape, h.handle, ?_, ?_, ?_, ?_⟩
  · intro j
    by_cases hj : j = i
    · subst hj
      simpa [System.goto, hheld] using h.owns j
    · simpa [System.goto, Function.update_noteq hj] using h.owns j
  · intro j hj
    have hne : j ≠ i := by omega
    simpa [System.goto, Function.update_noteq hne] using h.idle j hj
  · intro j
    by_cases hj : j = i
    · subst hj
      simpa [System.goto] using hloc
    · simpa [System.goto, Function.update_noteq hj] using h.loc j
  · intro h1 h2
    obtain ⟨j, hj⟩ := h.pending h1 h2
    have hne : j ≠ i := by
      rintro rfl
      exact hlaunch hj
    exact ⟨j, by simpa [System.goto, Function.update_noteq hne] using hj⟩

/-- Two callers that hold the lock are the same caller. -/
theorem System.Inv.held_unique {n : Nat} {s : System} (h : s.Inv n) (i j : Nat)
    (hi : (s.pcs i).held = true) (hj : (s.pcs j).held = true) : i = j := by
  have h1 := (h.owns i).1 hi
  have h2 := (h.owns j).1 hj
  rw [h1] at h2
  exact Option.some.inj h2

/-- Under the lock, a published handle already has its goroutine unless the lock holder is
the one about to launch it. -/
theorem System.Inv.launched {n : Nat} {s : System} (h : s.Inv n) (i : Nat)
    (hi : (s.pcs i).held = true) (hpc : s.pcs i ≠ .launch)
    (hs : s.proc.singleInstance = some 0) : s.proc.goroutines.length = 1 := by
  rcases h.shape with ⟨h0, _, _⟩ | ⟨_, _, hle⟩
  · rw [hs] at h0
    cases h0
  · by_contra hne
    have hnil : s.proc.goroutines = [] := by
      apply List.eq_nil_of_length_eq_zero
      omega
    obtain ⟨j, hj⟩ := h.pending hs hnil
    have hij := h.held_unique i j hi (by rw [hj]; rfl)
    subst hij
    exact hpc hj

/-- Another caller does not hold the lock while caller `i` does. -/
theorem System.Inv.others_free {n : Nat} {s : System} (h : s.Inv n) (i j : Nat)
    (hi : (s.pcs i).held = true) (hj : j ≠ i) : (s.pcs j).held = false := by
  cases hh : (s.pcs j).held with
  | false => rfl
  | true => exact absurd (h.held_unique j i hh hi) hj

/-- Every step of every caller keeps the invariant, when all callers pass non-nil
arguments. -/
theorem System.Inv.step {n : Nat} {calls : Nat → Call}
    (hv : ∀ i, i < n → (calls i).valid = true) {s : System} (h : s.Inv n) (i : Nat) :
    (s.step n calls i).Inv n := by
  unfold System.step
  split
  · next hi =>
    have hvi := hv i hi
    simp only [Call.valid, Bool.and_eq_true, Option.isSome_iff_exists] at hvi
    obtain ⟨⟨c0, hc0⟩, ⟨k0, hk0⟩⟩ := hvi
    have hloc := h.loc i
    have hsome : ∀ v, s.proc.singleInstance = some v → s.proc.singleInstance = some 0 := by
      intro v hv1
      rcases h.shape with ⟨h0, _, _⟩ | ⟨h0, _, _⟩
      · rw [h0] at hv1
        cases hv1
      · exact h0
    split
    · next hpc =>
      simp only [hc0, hk0]
      exact h.goto i .check1 hi (by rw [hpc]; rfl) trivial (by rw [hpc]; simp)
    · next hpc =>
      split
      · exact h.goto i .wantLock hi (by rw [hpc]; rfl) trivial (by rw [hpc]; simp)
      · next v hv1 =>
        apply System.Inv.goto
        · exact h.withProc _ rfl rfl rfl
        · exact hi
        · rw [System.withProc, hpc]
          rfl
        · exact hsome v hv1
        · rw [System.withProc, hpc]
          simp
    · next hpc =>
      split
      · next hown =>
        refine ⟨h.shape, h.handle, ?_, ?_, ?_, ?_⟩
        · intro j
          by_cases hj : j = i
          · subst hj
            simp [Pc.held]
          · have hfree : (s.pcs j).held = false := by
              cases hh : (s.pcs j).held with
              | false => rfl
              | true =>
                have := (h.owns j).1 hh
                rw [hown] at this
                cases this
            have hne : i ≠ j := fun e => hj e.symm
            simp [Function.update_noteq hj, hfree, hne]
        · intro j hj
          have hne : j ≠ i := by omega
          simpa [Function.update_noteq hne] using h.idle j hj
        · intro j
          by_cases hj : j = i
          · subst hj
            simp [localInv]
          · simpa [Function.update_noteq hj] using h.loc j
        · intro h1 h2
          obtain ⟨j, hj⟩ := h.pending h1 h2
          have hne : j ≠ i := by
            rintro rfl
            rw [hpc] at hj
            cases hj
          exact ⟨j, by simpa [Function.update_noteq hne] using hj⟩
      · exact h
    · next hpc =>
      have hheld : (s.pcs i).held = true := by rw [hpc]; rfl
      split
      · next hnone =>
        exact h.goto i .construct hi (by rw [hpc]; rfl) hnone (by rw [hpc]; simp)
      · next v hv1 =>
        have hs0 := hsome v hv1
        have hlen := h.launched i hheld (by rw [hpc]; simp) hs0
        apply System.Inv.goto
        · exact h.withProc _ rfl rfl rfl
        · exact hi
        · rw [System.withProc, hpc]
          rfl
        · exact ⟨hs0, hlen⟩
        · rw [System.withProc, hpc]
          simp
    · next hpc =>
      have hheld : (s.pcs i).held = true := by rw [hpc]; rfl
      rw [hpc] at hloc
      have hnone : s.proc.singleInstance = none := hloc
      have hshape : s.proc.heap = [] ∧ s.proc.goroutines = [] := by
        rcases h.shape with ⟨_, h1, h2⟩ | ⟨h0, _, _⟩
        · exact ⟨h1, h2⟩
        · rw [hnone] at h0
          cases h0
      refine ⟨?_, ?_, ?_, ?_, ?_, ?_⟩
      · right
        simp [System.goto, System.withProc, hshape.1, hshape.2]
      · intro g hg
        simp [System.goto, System.withProc, hshape.2] at hg
      · intro j
        by_cases hj : j = i
        · subst hj
          simpa [System.goto, System.withProc, Pc.held, hpc] using h.owns j
        · simpa [System.goto, System.withProc, Function.update_noteq hj] using h.owns j
      · intro j hj
        have hne : j ≠ i := by omega
        simpa [System.goto, System.withProc, Function.update_noteq hne] using h.idle j hj
      · intro j
        by_cases hj : j = i
        · subst hj
          simp [System.goto, System.withProc, localInv, hshape.1, hshape.2]
        · have hfree := h.others_free i j hheld hj
          have hlj := h.loc j
          simp only [System.goto, System.withProc, Function.update_noteq hj]
          cases hpcj : s.pcs j <;>
            simp [hpcj, localInv, Pc.held, hnone] at hfree hlj ⊢
      · intro _ _
        exact ⟨i, by simp [System.goto, System.withProc]⟩
    · next hpc =>
      have hheld : (s.pcs i).held = true := by rw [hpc]; rfl
      rw [hpc] at hloc
      obtain ⟨hs0, hnil⟩ : s.proc.singleInstance = some 0 ∧ s.proc.goroutines = [] := hloc
      have hlen : s.proc.heap.length = 1 := by
        rcases h.shape with ⟨h0, _, _⟩ | ⟨_, h1, _⟩
        · rw [hs0] at h0
          cases h0
        · exact h1
      simp only [hs0, hc0]
      refine ⟨?_, ?_, ?_, ?_, ?_, ?_⟩
      · right
        simp [System.goto, System.withProc, hs0, hlen, hnil]
      · intro g hg
        simp [System.goto, System.withProc, hnil] at hg
        rw [hg]
      · intro j
        by_cases hj : j = i
        · subst hj
          simpa [System.goto, System.withProc, Pc.held, hpc] using h.owns j
        · simpa [System.goto, System.withProc, Function.update_noteq hj] using h.owns j
      · intro j hj
        have hne : j ≠ i := by omega
        simpa [System.goto, System.withProc, Function.update_noteq hne] using h.idle j hj
      · intro j
        by_cases hj : j = i
        · subst hj
          simp [System.goto, System.withProc, localInv, hs0, hnil]
        · have hfree := h.others_free i j hheld hj
          have hlj := h.loc j
          simp only [System.goto, System.withProc, Function.update_noteq hj]
          cases hpcj : s.pcs j <;>
            simp [hpcj, localInv, Pc.held, hs0, hnil] at hfree hlj ⊢
          simp_all
      · intro _ h2
        simp [System.goto, System.withProc] at h2
    · next hpc =>
      rw [hpc] at hloc
      exact h.goto i _ hi (by rw [hpc]; rfl) ⟨hloc.1, hloc.1, hloc.2⟩ (by rw [hpc]; simp)
    · next v hpc =>
      have hheld : (s.pcs i).held = true := by rw [hpc]; rfl
      rw [hpc] at hloc
      refine ⟨h.shape, h.handle, ?_, ?_, ?_, ?_⟩
      · intro j
        by_cases hj : j = i
        · subst hj
          simp [Pc.held]
        · have hfree := h.others_free i j hheld hj
          simp [Function.update_noteq hj, hfree]
      · intro j hj
        have hne : j ≠ i := by omega
        simpa [Function.update_noteq hne] using h.idle j hj
      · intro j
        by_cases hj : j = i
        · subst hj
          simpa [localInv] using ⟨hloc.1, hloc.2.1⟩
        · simpa [Function.update_noteq hj] using h.loc j
      · intro h1 h2
        obtain ⟨j, hj⟩ := h.pending h1 h2
        have hne : j ≠ i := by
          rintro rfl
          rw [hpc] at hj
          cases hj
        exact ⟨j, by simpa [Function.update_noteq hne] using hj⟩
    · next hpc =>
      rw [hpc] at hloc
      exact h.goto i _ hi (by rw [hpc]; rfl) ⟨hloc, hloc⟩ (by rw [hpc]; simp)
    · exact h
    · exact h
    · exact h
  · exact h

/-- The invariant holds after every schedule. -/
theorem System.Inv.run {n : Nat} {calls : Nat → Call}
    (hv : ∀ i, i < n → (calls i).valid = true) (sched : List Nat) {s : System} (h : s.Inv n) :
    (s.run n calls sched).Inv n := by
  induction sched generalizing s with
  | nil => exact h
  | cons i sched ih => exact ih (h.step hv i)

theorem System.run_append (n : Nat) (calls : Nat → Call) (a b : List Nat) (s : System) :
    s.run n calls (a ++ b) = (s.run n calls a).run n calls b := by
  simp [System.run, List.foldl_append]

/-- A step of caller `i` does not move another caller. -/
theorem System.step_other (n : Nat) (calls : Nat → Call) (s : System) (i j : Nat) (hj : j ≠ i) :
    (s.step n calls i).pcs j = s.pcs j := by
  unfold System.step
  split
  · split <;> (try split) <;> simp [System.goto, System.withProc, Function.update_noteq hj]
  · rfl

/-- A caller that has not returned and is not kept waiting by another holder of the lock
comes closer to its return with its next step. -/
theorem System.step_rank (n : Nat) (calls : Nat → Call) (s : System) (i : Nat) (hi : i < n)
    (hfin : (s.pcs i).finished = false) (hfree : s.pcs i = .wantLock → s.owner = none) :
    ((s.step n calls i).pcs i).rank < (s.pcs i).rank := by
  unfold System.step
  rw [if_pos hi]
  split
  · next hpc => split <;> simp [System.goto, hpc, Pc.rank]
  · next hpc => split <;> simp [System.goto, System.withProc, hpc, Pc.rank]
  · next hpc => simp [hfree hpc, hpc, Pc.rank]
  · next hpc => split <;> simp [System.goto, System.withProc, hpc, Pc.rank]
  · next hpc => simp [System.goto, System.withProc, hpc, Pc.rank]
  · next hpc => split <;> simp [System.goto, System.withProc, hpc, Pc.rank]
  · next hpc => simp [System.goto, hpc, Pc.rank]
  · next hpc => simp [hpc, Pc.rank]
  · next hpc => simp [System.goto, hpc, Pc.rank]
  · next hpc => simp [hpc, Pc.finished] at hfin
  · next hpc => simp [hpc, Pc.finished] at hfin
  · next hpc => simp [hpc, Pc.finished] at hfin

/-- No deadlock: while some caller is still inside `GetClient`, some caller can take a step
that brings it closer to its return. -/
theorem System.Inv.progress {n : Nat} {s : System} (h : s.Inv n) (calls : Nat → Call) (i : Nat)
    (hi : i < n) (hfin : (s.pcs i).finished = false) :
    ∃ j, j < n ∧ ((s.step n calls j).pcs j).rank < (s.pcs j).rank := by
  by_cases hblocked : s.pcs i = .wantLock ∧ ∃ j, s.owner = some j
  · obtain ⟨_, j, hj⟩ := hblocked
    have hheld : (s.pcs j).held = true := (h.owns j).2 hj
    have hjn : j < n := by
      by_contra hge
      have := h.idle j (by omega)
      rw [this] at hheld
      cases hheld
    refine ⟨j, hjn, System.step_rank n calls s j hjn ?_ ?_⟩
    · cases hpc : s.pcs j <;> simp [hpc, Pc.held, Pc.finished] at hheld ⊢
    · intro hpc
      rw [hpc] at hheld
      cases hheld
  · refine ⟨i, hi, System.step_rank n calls s i hi hfin ?_⟩
    intro hpc
    cases hown : s.owner with
    | none => rfl
    | some j => exact absurd ⟨hpc, j, hown⟩ hblocked

/-- From every state that satisfies the invariant some schedule brings every caller to its
return. -/
theorem System.Inv.completes {n : Nat} {calls : Nat → Call}
    (hv : ∀ i, i < n → (calls i).valid = true) :
    ∀ (m : Nat) (s : System), s.Inv n → s.remaining n ≤ m →
      ∃ rest, ∀ i, i < n → ((s.run n calls rest).pcs i).finished = true := by
  intro m
  induction m with
  | zero =>
    intro s _ hm
    refine ⟨[], ?_⟩
    intro i hi
    have hz : (s.pcs i).rank = 0 := by
      have hsum : ∑ i in Finset.range n, (s.pcs i).rank = 0 := by
        simpa [System.remaining] using hm
      exact (Finset.sum_eq_zero_iff.mp hsum) i (Finset.mem_range.mpr hi)
    simp only [System.run, List.foldl_nil]
    cases hpc : s.pcs i <;> simp [hpc, Pc.rank, Pc.finished] at hz ⊢
  | succ m ih =>
    intro s h hm
    by_cases hall : ∀ i, i < n → (s.pcs i).finished = true
    · exact ⟨[], by simpa [System.run] using hall⟩
    · push_neg at hall
      obtain ⟨i, hi, hfin⟩ := hall
      have hfin2 : (s.pcs i).finished = false := by
        cases hh : (s.pcs i).finished with
        | false => rfl
        | true => exact absurd hh hfin
      obtain ⟨j, hjn, hlt⟩ := h.progress calls i hi hfin2
      have hdec : (s.step n calls j).remaining n < s.remaining n := by
        unfold System.remaining
        apply Finset.sum_lt_sum
        · intro k _
          by_cases hk : k = j
          · subst hk
            exact le_of_lt hlt
          · rw [System.step_other n calls s j k hk]
        · exact ⟨j, Finset.mem_range.mpr hjn, hlt⟩
      obtain ⟨rest, hrest⟩ := ih (s.step n calls j) (h.step hv j) (by omega)
      exact ⟨j :: rest, by simpa [System.run] using hrest⟩

/-- C16: `n` callers with non-nil arguments run `GetClient` side by side from a process
without a handle, their steps interleaved in any order. At every moment at most one handle has
been constructed and at most one `Start` launched, and a caller that has returned holds
handle 0 with a nil error. Once all have returned, exactly one handle exists, exactly one
`Start` runs, on that handle, and every caller has received it. The callers never block each
other for good: while one is inside, some caller can step towards its return, and from
every reachable state some continuation brings all of them to their return. -/
theorem C16_concurrent_first_callers (n : Nat) (calls : Nat → Call)
    (hv : ∀ i, i < n → (calls i).valid = true) (sched : List Nat) :
    ((System.init.run n calls sched).proc.heap.length ≤ 1 ∧
        (System.init.run n calls sched).proc.goroutines.length ≤ 1 ∧
        ∀ i, (∀ v, (System.init.run n calls sched).pcs i = .done v → v = some 0) ∧
          (System.init.run n calls sched).pcs i ≠ .crashed ∧
          ∀ e, (System.init.run n calls sched).pcs i ≠ .failed e) ∧
      (0 < n → (∀ i, i < n → ((System.init.run n calls sched).pcs i).finished = true) →
        (System.init.run n calls sched).proc.singleInstance = some 0 ∧
          (System.init.run n calls sched).proc.heap.length = 1 ∧
          (System.init.run n calls sched).proc.goroutines.length = 1 ∧
          (∀ g ∈ (System.init.run n calls sched).proc.goroutines, g.handle = 0) ∧
          ∀ i, i < n → (System.init.run n calls sched).pcs i = .done (some 0)) ∧
      (∀ i, i < n → ((System.init.run n calls sched).pcs i).finished = false →
        ∃ j, j < n ∧
          (((System.init.run n calls sched).step n calls j).pcs j).rank <
            ((System.init.run n calls sched).pcs j).rank) ∧
      ∃ rest, ∀ i, i < n →
        ((System.init.run n calls (sched ++ rest)).pcs i).finished = true := by
  have h : (System.init.run n calls sched).Inv n := (System.Inv.init n).run hv sched
  have hdone : ∀ i, (∀ v, (System.init.run n calls sched).pcs i = .done v → v = some 0) ∧
      (System.init.run n calls sched).pcs i ≠ .crashed ∧
      ∀ e, (System.init.run n calls sched).pcs i ≠ .failed e := by
    intro i
    have hl := h.loc i
    refine ⟨?_, ?_, ?_⟩
    · intro v hpc
      rw [hpc] at hl
      exact hl.1
    · intro hpc
      rw [hpc] at hl
      exact hl
    · intro e hpc
      rw [hpc] at hl
      exact hl
  refine ⟨⟨?_, ?_, hdone⟩, ?_, ?_, ?_⟩
  · rcases h.shape with ⟨_, h1, _⟩ | ⟨_, h1, _⟩
    · simp [h1]
    · omega
  · rcases h.shape with ⟨_, _, h1⟩ | ⟨_, _, h1⟩
    · simp [h1]
    · exact h1
  · intro hn hall
    have hret : ∀ i, i < n → (System.init.run n calls sched).pcs i = .done (some 0) := by
      intro i hi
      have hf := hall i hi
      have hl := h.loc i
      cases hpc : (System.init.run n calls sched).pcs i <;>
        simp [hpc, Pc.finished, localInv] at hf hl ⊢
      exact hl.1
    have hs0 : (System.init.run n calls sched).proc.singleInstance = some 0 := by
      have hl := h.loc 0
      rw [hret 0 hn] at hl
      exact hl.2
    have hnolaunch : ∀ i, (System.init.run n calls sched).pcs i ≠ .launch := by
      intro i hpc
      by_cases hi : i < n
      · rw [hret i hi] at hpc
        cases hpc
      · rw [h.idle i (by omega)] at hpc
        cases hpc
    rcases h.shape with ⟨h0, _, _⟩ | ⟨_, hlen, hle⟩
    · rw [hs0] at h0
      cases h0
    · refine ⟨hs0, hlen, ?_, h.handle, hret⟩
      by_contra hne
      have hnil : (System.init.run n calls sched).proc.goroutines = [] := by
        apply List.eq_nil_of_length_eq_zero
        omega
      obtain ⟨j, hj⟩ := h.pending hs0 hnil
      exact hnolaunch j hj
  · intro i hi hfin
    exact h.progress calls i hi hfin
  · obtain ⟨rest, hrest⟩ := System.Inv.completes hv _ _ h (le_refl _)
    exact ⟨rest, by simpa [System.run_append] using hrest⟩

/-- Witness of C16: two callers race through the unlocked test; caller 0 constructs the
handle and launches `Start` with its own context, both return handle 0. -/
theorem C16_concurrent_first_callers_witness :
    (System.init.run 2 sampleCalls raceSchedule).pcs 0 = .done (some 0) ∧
      (System.init.run 2 sampleCalls raceSchedule).pcs 1 = .done (some 0) ∧
      (System.init.run 2 sampleCalls raceSchedule).proc.heap.length = 1 ∧
      (System.init.run 2 sampleCalls raceSchedule).proc.goroutines.length = 1 := by
  have h := (C16_concurrent_first_callers 2 sampleCalls (fun _ _ => rfl) raceSchedule).2.1
    (by decide) (by decide)
  exact ⟨h.2.2.2.2 0 (by decide), h.2.2.2.2 1 (by decide), h.2.1, h.2.2.1⟩

end Nephio
